import Mathlib

/-!
# The rkt client and the pod orchestration of `cnt` / `dgr`

A shallow embedding of `dgr/common/rkt-client.go`, `builder/pod.go` and
`bin-dgr/pod-test.go`, and the properties of the specification that are settled on it.

Conventions of the embedding.

* A Go `string` is a `String` (a sequence of Unicode characters: the texts considered are valid
  UTF-8), a Go slice is the `List` of its elements, and `append(s, x...)` is `s ++ x`.  When
  `append` writes into the spare capacity of a backing array, it writes past the length of `s`, so
  the elements of `s`, and of the slices of the client that `s` was copied from, are what they
  were; the code runs sequentially and never reads a slice past its length.  A slice expression
  that Go rejects at run time (`s[0]`, `s[1:]` on an empty slice) is a panic, and a function that
  can panic returns an `Option` whose `none` is the panic.
* A Go result `(T, error)` is a pair `T × Option Err`, `nil` being `none`, so that the two
  components stay independent as they are in Go.
* The external binary is a function from the invocation (head, arguments) to the captured output and
  the error of the call.  Every operation records the invocations it issues, in order.
* A method with a pointer receiver also returns its receiver as it is after the call (the methods
  modelled here assign no field of it).
* `logs.IsDebugEnabled()` is the Boolean `debugEnabled`; log statements have no other effect.
-/

namespace Dgr

/-! ## Strings -/

/-- Go's `strings.HasPrefix(s, p)`. -/
def startsWith (s p : String) : Bool :=
  p.data.isPrefixOf s.data

/-- The pieces of a character sequence between the occurrences of `sep`
(always at least one piece). -/
def splitOnChar (sep : Char) : List Char → List (List Char)
  | [] => [[]]
  | c :: cs =>
    match splitOnChar sep cs with
    | [] => if c = sep then [[], []] else [[c]]
    | seg :: segs => if c = sep then [] :: seg :: segs else (c :: seg) :: segs

/-- Lower case of one rune as Go's `unicode.ToLower` gives it, for the runes whose lower case is an
ASCII letter: the ASCII capitals, U+0130 (lower case `i`) and U+212A (lower case `k`).  Every other
rune is left as it is, which never changes whether the result equals an all-ASCII lower-case word. -/
def runeToLower (c : Char) : Char :=
  if c.toNat = 0x130 then 'i'
  else if c.toNat = 0x212A then 'k'
  else c.toLower

/-- Go's `strings.ToLower`, rune by rune through `runeToLower`. -/
def ToLower (s : String) : String :=
  String.mk (s.data.map runeToLower)

/-! ## Versions -/

/-- Modelled from the spec: `Version` (declared in a file of the package that is not part of the
sources at hand) is "an opaque ordered string token (e.g. "1.4.0")". -/
abbrev Version := String

/-- Value of the leading decimal digits of a component (0 when there is none). -/
def Version.componentValue (cs : List Char) : Nat :=
  (cs.takeWhile Char.isDigit).foldl (fun n c => 10 * n + (c.toNat - '0'.toNat)) 0

/-- The numeric components of a dotted version token. -/
def Version.components (v : Version) : List Nat :=
  (splitOnChar '.' v.data).map Version.componentValue

/-- Component-wise numeric "less than", a missing component counting as 0. -/
def Version.componentsLess : List Nat → List Nat → Bool
  | [], [] => false
  | _ :: _, [] => false
  | [], b :: bs => if 0 < b then true else Version.componentsLess [] bs
  | a :: as, b :: bs =>
    if a < b then true else if b < a then false else Version.componentsLess as bs

/-- Modelled from the spec: `Version.LessThan`, absent from the sources at hand; "comparison is
dotted-numeric, not lexicographic", so `"1.4.0" < "1.24.0"`.  What the spec leaves open (a missing
or non-numeric component) is read as 0 here; no result below depends on that choice. -/
def Version.LessThan (v other : Version) : Bool :=
  Version.componentsLess v.components other.components

/-- Modelled from the spec: `Version.GreaterThanOrEqualTo`, absent from the sources at hand; the
complement of `LessThan` in the dotted-numeric order. -/
def Version.GreaterThanOrEqualTo (v other : Version) : Bool :=
  !Version.LessThan v other

/-- Source: `const rktSupportedVersion Version = "1.4.0"`. -/
def rktSupportedVersion : Version := "1.4.0"

/-- Source: `const rktVersionWithPullPolicy = "1.24.0"`. -/
def rktVersionWithPullPolicy : Version := "1.24.0"

/-! ## Configuration, fields and errors -/

/-- Source: `type PullPolicy string`. -/
abbrev PullPolicy := String

/-- Source: `type InsecuOptions []string`. -/
abbrev InsecuOptions := List String

/-- Source: `InsecuOptions.HasImage`. -/
def InsecuOptions.HasImage : InsecuOptions → Bool
  | [] => false
  | option :: rest => if ToLower option = "image" then true else InsecuOptions.HasImage rest

/-- Source: `type RktConfig struct`. -/
structure RktConfig where
  Path : String
  InsecureOptions : InsecuOptions
  dir : String
  LocalConfig : String
  SystemConfig : String
  UserConfig : String
  PullPolicy : Dgr.PullPolicy
  TrustKeysFromHttps : Bool
  NoStore : Bool
  StoreOnly : Bool
deriving DecidableEq, Repr

/-- A value stored in a field of a log entry or error (`interface{}` in go-erlog), for the kinds of
value the code stores. -/
inductive FieldVal where
  | str (s : String)
  | config (c : RktConfig)
deriving DecidableEq, Repr

/-- The fields of go-erlog (`data.Fields`, a map from names to values), as an association list. -/
abbrev Fields := List (String × FieldVal)

/-- The function `data.WithField`: the fields holding the one entry. -/
def data.WithField (name : String) (value : FieldVal) : Fields :=
  [(name, value)]

/-- The method `Fields.WithField`: a copy of the fields in which `name` holds `value`. -/
def Fields.WithField (f : Fields) (name : String) (value : FieldVal) : Fields :=
  f.filter (fun kv => kv.1 != name) ++ [(name, value)]

/-- Error values: one made outside this code (process execution, `fmt`, file and yaml reading), and
the two of go-erlog that the code builds, `errs.WithF(fields, msg)` and
`errs.WithEF(cause, fields, msg)`. -/
inductive Err where
  | ext (msg : String)
  | WithF (fields : Fields) (msg : String)
  | WithEF (cause : Err) (fields : Fields) (msg : String)
deriving DecidableEq, Repr

/-! ## The external binary -/

/-- One call of `ExecCmdGetOutput(head, parts...)`. -/
structure Invocation where
  head : String
  parts : List String
deriving DecidableEq, Repr

/-- What `ExecCmdGetOutput` returns: the captured output and the error. -/
structure ExecOut where
  output : String
  err : Option Err
deriving DecidableEq, Repr

/-- The behaviour of the external binary (`ExecCmdGetOutput` is not part of the sources at hand and
is taken as this parameter). -/
abbrev Runtime := Invocation → ExecOut

/-! ## The client -/

/-- Source: `type RktClient struct`. -/
structure RktClient where
  Version : Dgr.Version
  config : RktConfig
  globalArgs : List String
  fields : Fields
deriving DecidableEq, Repr

/-- What a method of `*RktClient` did: the receiver after the call, the invocations of the binary it
issued, and what it returned. -/
structure Ran (α : Type) where
  rkt : RktClient
  calls : List Invocation
  result : α
deriving DecidableEq, Repr

/-- Source: `RktConfig.prepareGlobalArgs`. -/
def RktConfig.prepareGlobalArgs (debugEnabled : Bool) (rktCfg : RktConfig)
    (insecureOptions : List String) : List String :=
  let args : List String := []
  let cmd := if rktCfg.Path != "" then rktCfg.Path else "rkt"
  let args := args ++ [cmd]
  let args := if debugEnabled then args ++ ["--debug"] else args
  let args := if rktCfg.TrustKeysFromHttps then args ++ ["--trust-keys-from-https"] else args
  let args := if rktCfg.UserConfig != "" then args ++ ["--user-config=" ++ rktCfg.UserConfig] else args
  let args := if rktCfg.LocalConfig != "" then args ++ ["--local-config=" ++ rktCfg.LocalConfig] else args
  let args := if rktCfg.SystemConfig != "" then args ++ ["--system-config=" ++ rktCfg.SystemConfig] else args
  let args := if rktCfg.dir != "" then args ++ ["--rkt.dir=" ++ rktCfg.dir] else args
  let args := args ++ ["--insecure-options=" ++ String.intercalate "," insecureOptions]
  args

/-- Source: `RktClient.argsStore`; `globalArgs[1:]` panics on an empty slice. -/
def RktClient.argsStore (rkt : RktClient) (cmd : List String) (globalArgs : List String)
    (cmdArgs : List String) : Option (List String) :=
  match globalArgs with
  | [] => none
  | _ :: rest =>
    let args := rest
    let args := args ++ cmd
    let args := if rkt.config.NoStore then args ++ ["--no-store"] else args
    let args := if rkt.config.StoreOnly then args ++ ["--store-only"] else args
    let args := args ++ cmdArgs
    some args

/-! ## Reading lines and scanning a token (Go's `bufio` and `fmt`) -/

/-- The constant `bufio.MaxScanTokenSize`: a line of that many bytes or more stops a `Scanner`. -/
def MaxScanTokenSize : Nat := 64 * 1024

/-- The helper `dropCR` of `bufio.ScanLines`: one trailing carriage return is dropped. -/
def dropCR (l : List Char) : List Char :=
  if l.getLast? = some '\r' then l.dropLast else l

/-- The lines that the loop `for scanner.Scan() { line := scanner.Text() ... }` sees, for a
`bufio.Scanner` with the default split function `ScanLines` reading `output`: the text is cut at
every `'\n'`, an empty remainder after the last `'\n'` is no line, the scan stops for good at the
first line of `MaxScanTokenSize` bytes or more, and each line loses one trailing `'\r'`. -/
def scanLines (output : String) : List String :=
  let segs := splitOnChar '\n' output.data
  let segs := if segs.getLast? = some [] then segs.dropLast else segs
  (segs.takeWhile (fun l => decide ((String.mk l).utf8ByteSize < MaxScanTokenSize))).map
    (fun l => String.mk (dropCR l))

/-- The space runes of package `fmt` (`isSpace` in `fmt/scan.go`). -/
def isSpace (r : Char) : Bool :=
  let n := r.toNat
  (0x09 ≤ n && n ≤ 0x0d) || n == 0x20 || n == 0x85 || n == 0xA0 || n == 0x1680 ||
    (0x2000 ≤ n && n ≤ 0x200a) || n == 0x2028 || n == 0x2029 || n == 0x202f || n == 0x205f ||
    n == 0x3000

/-- The items of a scan format: a literal rune, a run of blanks, the verb `%s`. -/
inductive FmtItem where
  | lit (c : Char)
  | blank
  | verbS
deriving DecidableEq, Repr

/-- The format `"rkt Version: %s"` of `GetVersion`. -/
def rktVersionFormat : List FmtItem :=
  [.lit 'r', .lit 'k', .lit 't', .blank, .lit 'V', .lit 'e', .lit 'r', .lit 's', .lit 'i',
   .lit 'o', .lit 'n', .lit ':', .blank, .verbS]

/-- Input left after the spaces other than newline that a blank of the format consumes. -/
def skipBlanks : List Char → List Char
  | [] => []
  | c :: cs => if isSpace c && c != '\n' then skipBlanks cs else c :: cs

/-- The method `SkipSpace` of the scan state of `fmt`, when a newline does not count as space (as in
`Sscanf`): the input left, or the error of a newline met. -/
def SkipSpace : List Char → Except Err (List Char)
  | [] => .ok []
  | c :: cs =>
    if c = '\r' && cs.head? = some '\n' then SkipSpace cs
    else if c = '\n' then .error (.ext "unexpected newline")
    else if !isSpace c then .ok (c :: cs)
    else SkipSpace cs

/-- The scanning loop of `fmt` (`doScanf` with `advance`) over a format of literals, blanks and `%s`:
the number of values stored, the error, and the values.
A literal needs the same rune in the input; a blank needs a space other than newline, or the end of
the input, and consumes the spaces that follow; `%s` skips spaces and stores the next word, the
runes up to the next space, failing at the end of the input. -/
def doScanf : List FmtItem → List Char → Nat × Option Err × List String
  | [], _ => (0, none, [])
  | .lit _ :: _, [] => (0, some (.ext "unexpected EOF"), [])
  | .lit f :: fmt, c :: inp =>
    if f = c then doScanf fmt inp else (0, some (.ext "input does not match format"), [])
  | .blank :: fmt, [] => doScanf fmt []
  | .blank :: fmt, c :: inp =>
    if !isSpace c then (0, some (.ext "expected space in input to match format"), [])
    else if c = '\n' then (0, some (.ext "newline in input does not match format"), [])
    else doScanf fmt (skipBlanks inp)
  | .verbS :: fmt, inp =>
    match SkipSpace inp with
    | .error e => (0, some e, [])
    | .ok [] => (0, some (.ext "EOF"), [])
    | .ok (c :: cs) =>
      let word := (c :: cs).takeWhile (fun r => !isSpace r)
      let after := (c :: cs).dropWhile (fun r => !isSpace r)
      match doScanf fmt after with
      | (n, err, vals) => (n + 1, err, String.mk word :: vals)

/-- The call `fmt.Sscanf(line, format, &versionString)`: the count, the error, and `versionString`
after the call (it starts as the empty string). -/
def Sscanf (line : String) (format : List FmtItem) : Nat × Option Err × String :=
  match doScanf format line.data with
  | (n, err, vals) => (n, err, vals.head?.getD "")

/-! ## Version detection and construction -/

/-- The loop of `GetVersion` over the lines of the output, with its two error returns.
(`errs.WithEF` with a `nil` cause is the error without cause.) -/
def RktClient.GetVersion.scan (fields : Fields) (output : String) :
    List String → Dgr.Version × Option Err
  | [] => ("", some (.WithF (fields.WithField "content" (.str output))
      "Cannot found rkt version from rkt call"))
  | line :: rest =>
    if startsWith line "rkt Version:" then
      match Sscanf line rktVersionFormat with
      | (_, some err, _) =>
        ("", some (.WithEF err (fields.WithField "cpntent" (.str line)) "Failed to read rkt version"))
      | (read, none, versionString) =>
        if read != 1 then
          ("", some (.WithF (fields.WithField "cpntent" (.str line)) "Failed to read rkt version"))
        else (versionString, none)
    else RktClient.GetVersion.scan fields output rest

/-- Source: `RktClient.GetVersion`; `rkt.globalArgs[0]` panics on an empty slice. -/
def RktClient.GetVersion (rt : Runtime) (rkt : RktClient) :
    Option (Ran (Dgr.Version × Option Err)) :=
  match rkt.globalArgs with
  | [] => none
  | head :: _ =>
    let call : Invocation := ⟨head, ["version"]⟩
    let out := rt call
    match out.err with
    | some err => some ⟨rkt, [call], ("", some (.WithEF err rkt.fields "Failed to get rkt Version"))⟩
    | none => some ⟨rkt, [call], RktClient.GetVersion.scan rkt.fields out.output (scanLines out.output)⟩

/-- What `NewRktClient` did: the invocations of the binary it issued and the pair it returned. -/
structure Made where
  calls : List Invocation
  client : Option RktClient
  err : Option Err
deriving DecidableEq, Repr

/-- The client that `NewRktClient` builds before it asks for the version: the insecure options
default to `ondisk`, `image` when none is configured, and the global arguments are composed from the
resulting configuration. -/
def NewRktClient.rkt (debugEnabled : Bool) (config : RktConfig) : RktClient :=
  let config :=
    if config.InsecureOptions.length == 0 then { config with InsecureOptions := ["ondisk", "image"] }
    else config
  { Version := ""
    fields := data.WithField "config" (.config config)
    config := config
    globalArgs := config.prepareGlobalArgs debugEnabled config.InsecureOptions }

/-- Source: `NewRktClient`. -/
def NewRktClient (debugEnabled : Bool) (rt : Runtime) (config : RktConfig) : Option Made :=
  let rkt := NewRktClient.rkt debugEnabled config
  match rkt.GetVersion rt with
  | none => none
  | some ran =>
    match ran.result with
    | (_, some err) => some ⟨ran.calls, none, some err⟩
    | (v, none) =>
      if v.LessThan rktSupportedVersion then
        some ⟨ran.calls, none,
          some (.WithF ((ran.rkt.fields.WithField "current" (.str v)).WithField "required"
            (.str (">=" ++ rktSupportedVersion))) "Unsupported version of rkt")⟩
      else
        some ⟨ran.calls, some { ran.rkt with Version := v }, none⟩

/-- A client as `NewRktClient` returns it, for some debug setting, behaviour of the binary and
configuration (the fields of `RktClient` are unexported and `NewRktClient` is the one place that
builds a client). -/
def RktClient.Built (rkt : RktClient) : Prop :=
  ∃ (debugEnabled : Bool) (rt : Runtime) (config : RktConfig) (m : Made),
    NewRktClient debugEnabled rt config = some m ∧ m.client = some rkt

/-! ## Fetching -/

/-- Source: `RktClient.Fetch`. -/
def RktClient.Fetch (rt : Runtime) (rkt : RktClient) (image : String) (pullPolicy : PullPolicy) :
    Option (Ran (String × Option Err)) :=
  let globalArgs := rkt.globalArgs
  let pullPolicy := if rkt.config.PullPolicy != "" then rkt.config.PullPolicy else pullPolicy
  let globalArgs :=
    if rkt.Version.GreaterThanOrEqualTo rktVersionWithPullPolicy then
      globalArgs ++ ["--pull-policy=" ++ pullPolicy]
    else globalArgs
  match rkt.globalArgs, rkt.argsStore ["fetch"] globalArgs ["--full", image] with
  | head :: _, some args =>
    let call : Invocation := ⟨head, args⟩
    let out := rt call
    match out.err with
    | some err =>
      some ⟨rkt, [call],
        ("", some (.WithEF err (rkt.fields.WithField "image" (.str image)) "Failed to fetch image"))⟩
    | none => some ⟨rkt, [call], (out.output, none)⟩
  | _, _ => none

/-- Source: `RktClient.FetchInsecure`. -/
def RktClient.FetchInsecure (debugEnabled : Bool) (rt : Runtime) (rkt : RktClient)
    (image : String) : Option (Ran (String × Option Err)) :=
  let globalArgs := rkt.globalArgs
  let globalArgs :=
    if !rkt.config.InsecureOptions.HasImage then
      rkt.config.prepareGlobalArgs debugEnabled (rkt.config.InsecureOptions ++ ["image"])
    else globalArgs
  let globalArgs :=
    if rkt.Version.GreaterThanOrEqualTo rktVersionWithPullPolicy then
      globalArgs ++ ["--pull-policy=new"]
    else globalArgs
  match rkt.globalArgs, rkt.argsStore ["fetch"] globalArgs ["--full", image] with
  | head :: _, some args =>
    let call : Invocation := ⟨head, args⟩
    let out := rt call
    match out.err with
    | some err =>
      some ⟨rkt, [call],
        ("", some (.WithEF err (rkt.fields.WithField "image" (.str image)) "Failed to fetch image"))⟩
    | none => some ⟨rkt, [call], (out.output, none)⟩
  | _, _ => none

/-! ## Pods -/

/-- Modelled from the spec: `spec.ACFullname`, declared in a package that is not part of the sources
at hand; the identity of an image, "name + version", written `name:version`
(`<podName>_<appName>:<podVersion>`, e.g. `"acme_web:1.0.0"`). -/
abbrev ACFullname := String

/-- Modelled from the spec: `spec.NewACFullName`, absent from the sources at hand; the identity
written as the given text. -/
def NewACFullName (s : String) : ACFullname := s

/-- Modelled from the spec: `ACFullname.Name`, absent from the sources at hand; the name part of
`name:version`, the text before the first colon. -/
def ACFullname.Name (n : ACFullname) : String :=
  String.mk (n.data.takeWhile (fun c => c != ':'))

/-- Modelled from the spec: `ACFullname.Version`, absent from the sources at hand; the version part
of `name:version`, the text after the first colon (empty when there is no colon). -/
def ACFullname.Version (n : ACFullname) : String :=
  String.mk ((n.data.dropWhile (fun c => c != ':')).drop 1)

/-- Modelled from the spec: `ACFullname.ShortName`, absent from the sources at hand; "the short name"
of the identity, `"foo"` for `"example.com/foo"`: the last of the pieces of the name between
slashes. -/
def ACFullname.ShortName (n : ACFullname) : String :=
  String.mk ((splitOnChar '/' n.Name.data).getLast?.getD [])

/-- Modelled from the spec: the annotations of an application entry; the code at hand only copies
them. -/
abbrev Annotations := List (String × String)

/-- Modelled from the spec: the "declared app spec" of an application entry, kept as the text of its
declaration; the code at hand only copies it. -/
abbrev AppSpec := String

/-- Modelled from the spec: `spec.RuntimeApp`, an application entry of a pod manifest: "name,
dependencies, annotations, app spec". -/
structure RuntimeApp where
  Name : String
  Dependencies : List ACFullname
  Annotations : Dgr.Annotations
  App : AppSpec
deriving DecidableEq, Repr

/-- Modelled from the spec: the `Pod` part of `spec.PodManifest`, the "ordered list of application
entries". -/
structure PodDefinition where
  Apps : List RuntimeApp
deriving DecidableEq, Repr

/-- Modelled from the spec: `spec.PodManifest`, "name + version identity, ordered list of
application entries" (the fields that the code at hand reads). -/
structure PodManifest where
  Name : ACFullname
  Pod : PodDefinition
deriving DecidableEq, Repr

/-- Modelled from the spec: `spec.AciDefinition`: "annotations, declared app spec, dependency list,
path whitelist". -/
structure AciDefinition where
  Annotations : Dgr.Annotations
  App : AppSpec
  Dependencies : List ACFullname
  PathWhitelist : List String
deriving DecidableEq, Repr

/-- Modelled from the spec: `spec.AciManifest`, the application-image manifest: its identity and its
definition. -/
structure AciManifest where
  Aci : AciDefinition
  NameAndVersion : ACFullname
deriving DecidableEq, Repr

/-- Modelled from the spec: `BuildArgs`, the options of a build, by name; the code at hand only
passes them on. -/
abbrev BuildArgs := List (String × Bool)

/-- Source: `type Pod struct`. -/
structure Pod where
  fields : Fields
  path : String
  args : BuildArgs
  target : String
  manifest : PodManifest
deriving DecidableEq, Repr

/-- The loop of `readPodManifest` over the application entries; `app.Dependencies[0]` panics when
the entry has no dependency. -/
def readPodManifest.nameApps : List RuntimeApp → Option (List RuntimeApp)
  | [] => some []
  | app :: rest =>
    if app.Name = "" then
      match app.Dependencies with
      | [] => none
      | dep :: _ =>
        match readPodManifest.nameApps rest with
        | none => none
        | some named => some ({ app with Name := dep.ShortName } :: named)
    else
      match readPodManifest.nameApps rest with
      | none => none
      | some named => some (app :: named)

/-- Source: `readPodManifest`.  `ReadFile` is `ioutil.ReadFile` (content and error) and `Unmarshal`
is `yaml.Unmarshal` into an empty manifest (the manifest after the call, and the error); both are
outside the sources at hand.  The result is the returned pair, or `none` for a panic. -/
def readPodManifest (ReadFile : String → String × Option Err)
    (Unmarshal : String → PodManifest × Option Err) (manifestPath : String) :
    Option (Option PodManifest × Option Err) :=
  match ReadFile manifestPath with
  | (_, some err) => some (none, some err)
  | (source, none) =>
    match Unmarshal source with
    | (_, some err) => some (none, some err)
    | (manifest, none) =>
      match readPodManifest.nameApps manifest.Pod.Apps with
      | none => none
      | some apps => some (some { manifest with Pod := { manifest.Pod with Apps := apps } }, none)

/-- Source: `Pod.toAciManifest` (the path whitelist is left `nil`, the empty list). -/
def Pod.toAciManifest (p : Pod) (e : RuntimeApp) : AciManifest :=
  let fullname := NewACFullName (p.manifest.Name.Name ++ "_" ++ e.Name ++ ":" ++ p.manifest.Name.Version)
  { Aci :=
      { Annotations := e.Annotations
        App := e.App
        Dependencies := e.Dependencies
        PathWhitelist := [] }
    NameAndVersion := fullname }

/-- Modelled from the spec: `Aci`, the "transient application-image context" that `Pod.Test` builds
for an application and tags "with the owning pod's name"; its type is declared outside the sources
at hand. -/
structure Aci where
  path : String
  args : BuildArgs
  manifest : AciManifest
  podName : Option ACFullname
deriving DecidableEq, Repr

/-- How a run of `Pod.Test` ends: it returns its error value (`none` is `nil`), or the process is
terminated by `logs...Fatal`, or it panics on a `nil` context. -/
inductive Outcome where
  | returned (err : Option Err)
  | fatal (err : Err)
  | panicked
deriving DecidableEq, Repr

/-- A run of `Pod.Test`: how it ends, and the contexts on which the test routine `aci.Test()` was
invoked, in the order of the invocations. -/
structure Tested where
  outcome : Outcome
  tested : List Aci
deriving DecidableEq, Repr

/-- The loop of `Pod.Test` over the application entries.  `NewAciWithManifest` (a context and an
error) and the test routine `aciTest` (`aci.Test()`) are outside the sources at hand. -/
def Pod.Test.loop (NewAciWithManifest : String → BuildArgs → AciManifest → Option Aci × Option Err)
    (aciTest : Aci → Option Err) (p : Pod) : List RuntimeApp → Tested
  | [] => ⟨.returned none, []⟩
  | e :: rest =>
    match NewAciWithManifest (p.path ++ "/" ++ e.Name) p.args (p.toAciManifest e) with
    | (_, some err) => ⟨.fatal err, []⟩
    | (none, none) => ⟨.panicked, []⟩
    | (some aci, none) =>
      let aci := { aci with podName := some p.manifest.Name }
      match aciTest aci with
      | some err => ⟨.returned (some err), [aci]⟩
      | none =>
        let r := Pod.Test.loop NewAciWithManifest aciTest p rest
        ⟨r.outcome, aci :: r.tested⟩

/-- Source: `Pod.Test`. -/
def Pod.Test (NewAciWithManifest : String → BuildArgs → AciManifest → Option Aci × Option Err)
    (aciTest : Aci → Option Err) (p : Pod) : Tested :=
  Pod.Test.loop NewAciWithManifest aciTest p p.manifest.Pod.Apps

/-! ## Slices in memory (Go's slice values and `append`) -/

/-- Go's slice value: the backing array it points into (`arr`, an index into the memory), the
position in that array of its first element (`off`), its length and its capacity. -/
structure Slice where
  arr : Nat
  off : Nat
  len : Nat
  cap : Nat
deriving DecidableEq, Repr

/-- The memory: the backing arrays of string slices that have been allocated. -/
abbrev Store := List (List String)

/-- The backing array at index `a` of the memory. -/
def Store.array (st : Store) (a : Nat) : List String :=
  (st[a]?).getD []

/-- The elements of the slice `s` in the memory `st`: the `s.len` elements of its backing array
from position `s.off` on. -/
def Store.view (st : Store) (s : Slice) : List String :=
  ((st.array s.arr).drop s.off).take s.len

/-- The slice `s` is a slice of the memory `st`: its backing array is allocated, its length is
within its capacity, and its capacity is within the backing array. -/
def Store.Holds (st : Store) (s : Slice) : Prop :=
  s.arr < st.length ∧ s.len ≤ s.cap ∧ s.off + s.cap ≤ (st.array s.arr).length

/-- A slice variable of a function that is running: the memory, and the slice value held by the
variable. -/
structure Cur where
  st : Store
  s : Slice

/-- The slice literal `[]string{}`: no element, no capacity, in a backing array of its own. -/
def Cur.empty (st : Store) : Cur :=
  ⟨st ++ [[]], ⟨st.length, 0, 0, 0⟩⟩

/-- Go's built-in `append(s, xs...)`.  If the capacity of `s` suffices, the elements are written
into the backing array of `s` right after its last element, over what was there, and the slice
returned has the same backing array and the new length.  Otherwise a new backing array is
allocated that holds the elements of `s`, then `xs`, then empty strings up to its capacity, which
is what is needed or what the growth policy `grow` of the runtime (a function of the old capacity
and of the length needed) gives, whichever is larger; the backing array of `s` is not written. -/
def Cur.append (grow : Nat → Nat → Nat) (c : Cur) (xs : List String) : Cur :=
  if c.s.len + xs.length ≤ c.s.cap then
    ⟨c.st.set c.s.arr
        ((c.st.array c.s.arr).take (c.s.off + c.s.len) ++ xs
          ++ (c.st.array c.s.arr).drop (c.s.off + c.s.len + xs.length)),
      { c.s with len := c.s.len + xs.length }⟩
  else
    ⟨c.st ++ [c.st.view c.s ++ xs
        ++ List.replicate (max (c.s.len + xs.length) (grow c.s.cap (c.s.len + xs.length))
            - (c.s.len + xs.length)) ""],
      ⟨c.st.length, 0, c.s.len + xs.length,
        max (c.s.len + xs.length) (grow c.s.cap (c.s.len + xs.length))⟩⟩

/-- The slice expression `s[1:]`; it panics on an empty slice. -/
def Slice.from1 (s : Slice) : Option Slice :=
  if s.len = 0 then none else some ⟨s.arr, s.off + 1, s.len - 1, s.cap - 1⟩

/-- Where the two slices of a client are in memory: `rkt.config.InsecureOptions` and
`rkt.globalArgs`. -/
structure Slices.Client where
  options : Slice
  globalArgs : Slice
deriving DecidableEq, Repr

/-- The memory `st` holds the client `rkt`: its two slices lie within backing arrays of `st`,
different ones (`prepareGlobalArgs` builds the global arguments in arrays of their own), and hold
the insecure options and the global arguments of `rkt`. -/
def Slices.Represents (st : Store) (loc : Slices.Client) (rkt : RktClient) : Prop :=
  st.Holds loc.options ∧ st.Holds loc.globalArgs ∧ loc.options.arr ≠ loc.globalArgs.arr
    ∧ st.view loc.options = rkt.config.InsecureOptions
    ∧ st.view loc.globalArgs = rkt.globalArgs

/-- Source: `RktConfig.prepareGlobalArgs`, on slices in memory: the options are the elements of
the slice `insecureOptions` in the memory `st`; the result is the memory after the call with the
slice returned. -/
def Slices.prepareGlobalArgs (grow : Nat → Nat → Nat) (debugEnabled : Bool) (rktCfg : RktConfig)
    (st : Store) (insecureOptions : Slice) : Cur :=
  let args := Cur.empty st
  let cmd := if rktCfg.Path != "" then rktCfg.Path else "rkt"
  let args := args.append grow [cmd]
  let args := if debugEnabled then args.append grow ["--debug"] else args
  let args := if rktCfg.TrustKeysFromHttps then args.append grow ["--trust-keys-from-https"] else args
  let args :=
    if rktCfg.UserConfig != "" then args.append grow ["--user-config=" ++ rktCfg.UserConfig]
    else args
  let args :=
    if rktCfg.LocalConfig != "" then args.append grow ["--local-config=" ++ rktCfg.LocalConfig]
    else args
  let args :=
    if rktCfg.SystemConfig != "" then args.append grow ["--system-config=" ++ rktCfg.SystemConfig]
    else args
  let args := if rktCfg.dir != "" then args.append grow ["--rkt.dir=" ++ rktCfg.dir] else args
  let args := args.append grow
    ["--insecure-options=" ++ String.intercalate "," (args.st.view insecureOptions)]
  args

/-- Source: `RktClient.argsStore`, on slices in memory: `globalArgs` is the memory with the slice
passed; the result is the memory after the call with the slice returned, or `none` for the panic of
`globalArgs[1:]`. -/
def Slices.argsStore (grow : Nat → Nat → Nat) (rkt : RktClient) (cmd : List String)
    (globalArgs : Cur) (cmdArgs : List String) : Option Cur :=
  match globalArgs.s.from1 with
  | none => none
  | some rest =>
    let args : Cur := ⟨globalArgs.st, rest⟩
    let args := args.append grow cmd
    let args := if rkt.config.NoStore then args.append grow ["--no-store"] else args
    let args := if rkt.config.StoreOnly then args.append grow ["--store-only"] else args
    let args := args.append grow cmdArgs
    some args

/-- Source: `RktClient.Fetch`, on slices in memory: the two slices of the client are read in the
memory `st` at `loc` (the list fields `rkt.config.InsecureOptions` and `rkt.globalArgs` are not
read); the result is the memory after the call and the invocation issued, whose outcome does not
touch the memory, or `none` for a panic. -/
def Slices.Fetch (grow : Nat → Nat → Nat) (rkt : RktClient) (st : Store) (loc : Slices.Client)
    (image : String) (pullPolicy : PullPolicy) : Option (Store × Invocation) :=
  let globalArgs : Cur := ⟨st, loc.globalArgs⟩
  let pullPolicy := if rkt.config.PullPolicy != "" then rkt.config.PullPolicy else pullPolicy
  let globalArgs :=
    if rkt.Version.GreaterThanOrEqualTo rktVersionWithPullPolicy then
      globalArgs.append grow ["--pull-policy=" ++ pullPolicy]
    else globalArgs
  match globalArgs.st.view loc.globalArgs,
      Slices.argsStore grow rkt ["fetch"] globalArgs ["--full", image] with
  | head :: _, some args => some (args.st, ⟨head, args.st.view args.s⟩)
  | _, _ => none

/-- Source: `RktClient.FetchInsecure`, on slices in memory, as `Slices.Fetch`. -/
def Slices.FetchInsecure (grow : Nat → Nat → Nat) (debugEnabled : Bool) (rkt : RktClient)
    (st : Store) (loc : Slices.Client) (image : String) : Option (Store × Invocation) :=
  let globalArgs : Cur := ⟨st, loc.globalArgs⟩
  let globalArgs :=
    if !InsecuOptions.HasImage (st.view loc.options) then
      let widened := (Cur.mk st loc.options).append grow ["image"]
      Slices.prepareGlobalArgs grow debugEnabled rkt.config widened.st widened.s
    else globalArgs
  let globalArgs :=
    if rkt.Version.GreaterThanOrEqualTo rktVersionWithPullPolicy then
      globalArgs.append grow ["--pull-policy=new"]
    else globalArgs
  match globalArgs.st.view loc.globalArgs,
      Slices.argsStore grow rkt ["fetch"] globalArgs ["--full", image] with
  | head :: _, some args => some (args.st, ⟨head, args.st.view args.s⟩)
  | _, _ => none

/-- The free space of `s` lies past the elements of `t`: they are in different backing
arrays, or `t` ends where `s` ends or before. -/
def Clear (t s : Slice) : Prop :=
  t.arr ≠ s.arr ∨ t.off + t.len ≤ s.off + s.len

/-- The working slice holds `l`, and each tracked slice holds what it is expected to hold and is
clear of the working slice. -/
def Inv (ts : List (Slice × List String)) (c : Cur) (l : List String) : Prop :=
  c.st.Holds c.s ∧ c.st.view c.s = l ∧
    ∀ p ∈ ts, c.st.Holds p.1 ∧ c.st.view p.1 = p.2 ∧ Clear p.1 c.s

/-! ## Auxiliary facts on strings and lists -/

theorem append_ne_of_not_isPrefixOf (p v t : String) (h : p.data.isPrefixOf t.data = false) :
    p ++ v ≠ t := by
  intro heq
  have hp : p.data <+: t.data := by
    rw [← heq, String.data_append]
    exact List.prefix_append _ _
  have hb := List.isPrefixOf_iff_prefix.mpr hp
  rw [h] at hb
  exact Bool.noConfusion hb

theorem mem_ite_singleton {c : Prop} [Decidable c] {x y : String}
    (h : y ∈ (if c then [x] else [])) : y = x := by
  split at h
  · simpa using h
  · simp at h

theorem mem_ite_singleton_neg {c : Prop} [Decidable c] {x y : String}
    (h : y ∈ (if c then [] else [x])) : y = x := by
  split at h
  · simp at h
  · simpa using h

/-- The closed form of `prepareGlobalArgs`. -/
theorem prepareGlobalArgs_eq (debugEnabled : Bool) (cfg : RktConfig) (opts : List String) :
    cfg.prepareGlobalArgs debugEnabled opts =
      (if cfg.Path = "" then "rkt" else cfg.Path) ::
        ((if debugEnabled = true then ["--debug"] else [])
          ++ (if cfg.TrustKeysFromHttps = true then ["--trust-keys-from-https"] else [])
          ++ (if cfg.UserConfig = "" then [] else ["--user-config=" ++ cfg.UserConfig])
          ++ (if cfg.LocalConfig = "" then [] else ["--local-config=" ++ cfg.LocalConfig])
          ++ (if cfg.SystemConfig = "" then [] else ["--system-config=" ++ cfg.SystemConfig])
          ++ (if cfg.dir = "" then [] else ["--rkt.dir=" ++ cfg.dir])
          ++ ["--insecure-options=" ++ String.intercalate "," opts]) := by
  unfold RktConfig.prepareGlobalArgs
  by_cases h1 : cfg.Path = "" <;> by_cases h2 : debugEnabled = true <;>
    by_cases h3 : cfg.TrustKeysFromHttps = true <;> by_cases h4 : cfg.UserConfig = "" <;>
    by_cases h5 : cfg.LocalConfig = "" <;> by_cases h6 : cfg.SystemConfig = "" <;>
    by_cases h7 : cfg.dir = "" <;>
    simp [h1, h2, h3, h4, h5, h6, h7]

/-- The flags of `prepareGlobalArgs` (everything after the binary path) hold no store flag. -/
theorem prepareGlobalArgs_tail_no_store (debugEnabled : Bool) (cfg : RktConfig)
    (opts : List String) (flag : String)
    (h : flag ∈ (cfg.prepareGlobalArgs debugEnabled opts).tail) :
    flag ≠ "--no-store" ∧ flag ≠ "--store-only" := by
  rw [prepareGlobalArgs_eq, List.tail_cons] at h
  simp only [List.mem_append, List.mem_singleton] at h
  rcases h with (((((h | h) | h) | h) | h) | h) | h
  · rw [mem_ite_singleton h]; exact ⟨by decide, by decide⟩
  · rw [mem_ite_singleton h]; exact ⟨by decide, by decide⟩
  · rw [mem_ite_singleton_neg h]
    exact ⟨append_ne_of_not_isPrefixOf _ _ _ (by decide),
      append_ne_of_not_isPrefixOf _ _ _ (by decide)⟩
  · rw [mem_ite_singleton_neg h]
    exact ⟨append_ne_of_not_isPrefixOf _ _ _ (by decide),
      append_ne_of_not_isPrefixOf _ _ _ (by decide)⟩
  · rw [mem_ite_singleton_neg h]
    exact ⟨append_ne_of_not_isPrefixOf _ _ _ (by decide),
      append_ne_of_not_isPrefixOf _ _ _ (by decide)⟩
  · rw [mem_ite_singleton_neg h]
    exact ⟨append_ne_of_not_isPrefixOf _ _ _ (by decide),
      append_ne_of_not_isPrefixOf _ _ _ (by decide)⟩
  · rw [h]
    exact ⟨append_ne_of_not_isPrefixOf _ _ _ (by decide),
      append_ne_of_not_isPrefixOf _ _ _ (by decide)⟩

theorem prepareGlobalArgs_getLast (debugEnabled : Bool) (cfg : RktConfig) (opts : List String) :
    (cfg.prepareGlobalArgs debugEnabled opts).getLast? =
      some ("--insecure-options=" ++ String.intercalate "," opts) := by
  rw [prepareGlobalArgs_eq, ← List.singleton_append, ← List.append_assoc,
    List.getLast?_append]
  simp

theorem NewRktClient.rkt_globalArgs (debugEnabled : Bool) (config : RktConfig) :
    (NewRktClient.rkt debugEnabled config).globalArgs =
      (NewRktClient.rkt debugEnabled config).config.prepareGlobalArgs debugEnabled
        (NewRktClient.rkt debugEnabled config).config.InsecureOptions := rfl

theorem NewRktClient.rkt_path (debugEnabled : Bool) (config : RktConfig) :
    (NewRktClient.rkt debugEnabled config).config.Path = config.Path := by
  unfold NewRktClient.rkt
  split <;> rfl

theorem NewRktClient.rkt_globalArgs_cons (debugEnabled : Bool) (config : RktConfig) :
    ∃ rest, (NewRktClient.rkt debugEnabled config).globalArgs =
      (if config.Path = "" then "rkt" else config.Path) :: rest := by
  rw [NewRktClient.rkt_globalArgs, prepareGlobalArgs_eq, NewRktClient.rkt_path]
  exact ⟨_, rfl⟩

/-- What `GetVersion` does on a client whose global arguments start with `head`. -/
theorem GetVersion_eq (rt : Runtime) (rkt : RktClient) (head : String) (rest : List String)
    (h : rkt.globalArgs = head :: rest) :
    rkt.GetVersion rt =
      some ⟨rkt, [⟨head, ["version"]⟩],
        match (rt ⟨head, ["version"]⟩).err with
        | some err => ("", some (.WithEF err rkt.fields "Failed to get rkt Version"))
        | none => RktClient.GetVersion.scan rkt.fields (rt ⟨head, ["version"]⟩).output
            (scanLines (rt ⟨head, ["version"]⟩).output)⟩ := by
  unfold RktClient.GetVersion
  rw [h]
  cases herr : (rt ⟨head, ["version"]⟩).err <;> simp [herr]

theorem argsStore_cons (rkt : RktClient) (cmd : List String) (head : String)
    (rest cmdArgs : List String) :
    rkt.argsStore cmd (head :: rest) cmdArgs =
      some (rest ++ cmd ++ (if rkt.config.NoStore = true then ["--no-store"] else [])
        ++ (if rkt.config.StoreOnly = true then ["--store-only"] else []) ++ cmdArgs) := by
  unfold RktClient.argsStore
  by_cases h1 : rkt.config.NoStore = true <;> by_cases h2 : rkt.config.StoreOnly = true <;>
    simp [h1, h2]

/-- What `Fetch` does on a client whose global arguments are `head :: gflags`. -/
theorem Fetch_eq (rt : Runtime) (rkt : RktClient) (image : String) (pullPolicy : PullPolicy)
    (head : String) (gflags args : List String) (h : rkt.globalArgs = head :: gflags)
    (hargs : args = gflags
      ++ (if rkt.Version.GreaterThanOrEqualTo rktVersionWithPullPolicy = true then
            ["--pull-policy=" ++ (if rkt.config.PullPolicy = "" then pullPolicy
              else rkt.config.PullPolicy)]
          else [])
      ++ ["fetch"] ++ (if rkt.config.NoStore = true then ["--no-store"] else [])
      ++ (if rkt.config.StoreOnly = true then ["--store-only"] else []) ++ ["--full", image]) :
    rkt.Fetch rt image pullPolicy =
      some ⟨rkt, [⟨head, args⟩],
        match (rt ⟨head, args⟩).err with
        | some err => ("", some (.WithEF err (rkt.fields.WithField "image" (.str image))
            "Failed to fetch image"))
        | none => ((rt ⟨head, args⟩).output, none)⟩ := by
  subst hargs
  unfold RktClient.Fetch
  simp only [h]
  by_cases hge : rkt.Version.GreaterThanOrEqualTo rktVersionWithPullPolicy = true
  · by_cases hpp : rkt.config.PullPolicy = ""
    · simp only [hge, hpp, if_true, List.cons_append, argsStore_cons, List.append_assoc,
        List.nil_append, bne_self_eq_false, Bool.false_eq_true, if_false]
      split <;> simp_all
    · simp only [hge, hpp, if_true, List.cons_append, argsStore_cons, List.append_assoc,
        List.nil_append, bne_iff_ne, ne_eq, not_false_eq_true, if_false]
      split <;> simp_all
  · simp only [hge, if_false, argsStore_cons, List.append_assoc, List.nil_append,
      Bool.false_eq_true]
    split <;> simp_all

/-- What `FetchInsecure` does on a client whose global arguments are `head :: gflags`. -/
theorem FetchInsecure_eq (debugEnabled : Bool) (rt : Runtime) (rkt : RktClient) (image : String)
    (head : String) (gflags args : List String) (h : rkt.globalArgs = head :: gflags)
    (hargs : args =
      (if rkt.config.InsecureOptions.HasImage = true then gflags
        else (rkt.config.prepareGlobalArgs debugEnabled
          (rkt.config.InsecureOptions ++ ["image"])).tail)
      ++ (if rkt.Version.GreaterThanOrEqualTo rktVersionWithPullPolicy = true then
            ["--pull-policy=new"] else [])
      ++ ["fetch"] ++ (if rkt.config.NoStore = true then ["--no-store"] else [])
      ++ (if rkt.config.StoreOnly = true then ["--store-only"] else []) ++ ["--full", image]) :
    rkt.FetchInsecure debugEnabled rt image =
      some ⟨rkt, [⟨head, args⟩],
        match (rt ⟨head, args⟩).err with
        | some err => ("", some (.WithEF err (rkt.fields.WithField "image" (.str image))
            "Failed to fetch image"))
        | none => ((rt ⟨head, args⟩).output, none)⟩ := by
  subst hargs
  unfold RktClient.FetchInsecure
  simp only [h]
  by_cases hge : rkt.Version.GreaterThanOrEqualTo rktVersionWithPullPolicy = true
  · by_cases hi : rkt.config.InsecureOptions.HasImage = true
    · simp only [hge, hi, if_true, List.cons_append, argsStore_cons, List.append_assoc,
        List.nil_append, Bool.not_true, Bool.false_eq_true, if_false]
      split <;> simp_all
    · rw [prepareGlobalArgs_eq]
      simp only [hge, hi, if_true, List.cons_append, argsStore_cons, List.append_assoc,
        List.nil_append, Bool.not_eq_true, Bool.false_eq_true, if_false, List.tail_cons,
        Bool.not_false]
      split <;> simp_all
  · by_cases hi : rkt.config.InsecureOptions.HasImage = true
    · simp only [hge, hi, if_true, List.cons_append, argsStore_cons, List.append_assoc,
        List.nil_append, Bool.not_true, Bool.false_eq_true, if_false]
      split <;> simp_all
    · rw [prepareGlobalArgs_eq]
      simp only [hge, hi, if_true, List.cons_append, argsStore_cons, List.append_assoc,
        List.nil_append, Bool.not_eq_true, Bool.false_eq_true, if_false, List.tail_cons,
        Bool.not_false]
      split <;> simp_all

theorem startsWith_append_false (p v q : String) (h1 : q.data.isPrefixOf p.data = false)
    (h2 : p.data.isPrefixOf q.data = false) : startsWith (p ++ v) q = false := by
  unfold startsWith
  rw [Bool.eq_false_iff]
  intro h
  have hq : q.data <+: p.data ++ v.data := by
    rw [← String.data_append]; exact List.isPrefixOf_iff_prefix.mp h
  rcases List.prefix_or_prefix_of_prefix hq (List.prefix_append p.data v.data) with h' | h'
  · have := List.isPrefixOf_iff_prefix.mpr h'
    rw [h1] at this; exact Bool.noConfusion this
  · have := List.isPrefixOf_iff_prefix.mpr h'
    rw [h2] at this; exact Bool.noConfusion this

theorem startsWith_append_true (p v q : String) (h : q.data.isPrefixOf p.data = true) :
    startsWith (p ++ v) q = true := by
  unfold startsWith
  rw [List.isPrefixOf_iff_prefix, String.data_append]
  exact (List.isPrefixOf_iff_prefix.mp h).trans (List.prefix_append _ _)

theorem filter_ite_singleton_false (f : String → Bool) (c : Prop) [Decidable c] (x : String)
    (h : f x = false) : (if c then [x] else []).filter f = [] := by
  split <;> simp [h]

theorem filter_ite_singleton_false_neg (f : String → Bool) (c : Prop) [Decidable c] (x : String)
    (h : f x = false) : (if c then [] else [x]).filter f = [] := by
  split <;> simp [h]

/-- No flag of `prepareGlobalArgs` starts with `--pull-policy`. -/
theorem prepareGlobalArgs_tail_filter_pull_policy (debugEnabled : Bool) (cfg : RktConfig)
    (opts : List String) :
    (cfg.prepareGlobalArgs debugEnabled opts).tail.filter
      (fun a => startsWith a "--pull-policy") = [] := by
  rw [prepareGlobalArgs_eq, List.tail_cons]
  simp only [List.filter_append]
  rw [filter_ite_singleton_false _ _ _ (by decide),
    filter_ite_singleton_false _ _ _ (by decide),
    filter_ite_singleton_false_neg (fun a => startsWith a "--pull-policy") _ _
      (startsWith_append_false _ _ _ (by decide) (by decide)),
    filter_ite_singleton_false_neg (fun a => startsWith a "--pull-policy") _ _
      (startsWith_append_false _ _ _ (by decide) (by decide)),
    filter_ite_singleton_false_neg (fun a => startsWith a "--pull-policy") _ _
      (startsWith_append_false _ _ _ (by decide) (by decide)),
    filter_ite_singleton_false_neg (fun a => startsWith a "--pull-policy") _ _
      (startsWith_append_false _ _ _ (by decide) (by decide))]
  simp [startsWith_append_false _ _ _ (by decide : ("--pull-policy" : String).data.isPrefixOf
    ("--insecure-options=" : String).data = false) (by decide)]

/-- The one flag of `prepareGlobalArgs` that starts with `--insecure-options` is its last. -/
theorem prepareGlobalArgs_tail_filter_insecure (debugEnabled : Bool) (cfg : RktConfig)
    (opts : List String) :
    (cfg.prepareGlobalArgs debugEnabled opts).tail.filter
      (fun a => startsWith a "--insecure-options") =
      ["--insecure-options=" ++ String.intercalate "," opts] := by
  rw [prepareGlobalArgs_eq, List.tail_cons]
  simp only [List.filter_append]
  rw [filter_ite_singleton_false _ _ _ (by decide),
    filter_ite_singleton_false _ _ _ (by decide),
    filter_ite_singleton_false_neg (fun a => startsWith a "--insecure-options") _ _
      (startsWith_append_false _ _ _ (by decide) (by decide)),
    filter_ite_singleton_false_neg (fun a => startsWith a "--insecure-options") _ _
      (startsWith_append_false _ _ _ (by decide) (by decide)),
    filter_ite_singleton_false_neg (fun a => startsWith a "--insecure-options") _ _
      (startsWith_append_false _ _ _ (by decide) (by decide)),
    filter_ite_singleton_false_neg (fun a => startsWith a "--insecure-options") _ _
      (startsWith_append_false _ _ _ (by decide) (by decide))]
  simp [startsWith_append_true _ _ _ (by decide : ("--insecure-options" : String).data.isPrefixOf
    ("--insecure-options=" : String).data = true)]

/-- A built client holds the arguments composed from its own configuration, its insecure options
are not empty, and its version is not less than the supported one. -/
theorem Built_globalArgs (rkt : RktClient) (hc : rkt.Built) :
    (∃ debugEnabled, rkt.globalArgs =
        rkt.config.prepareGlobalArgs debugEnabled rkt.config.InsecureOptions)
      ∧ rkt.config.InsecureOptions ≠ []
      ∧ rkt.Version.LessThan rktSupportedVersion = false := by
  obtain ⟨debugEnabled, rt, config, m, hm, hclient⟩ := hc
  obtain ⟨rest, hargs⟩ := NewRktClient.rkt_globalArgs_cons debugEnabled config
  have hget := GetVersion_eq rt _ _ _ hargs
  unfold NewRktClient at hm
  simp only [hget] at hm
  have hopts : (NewRktClient.rkt debugEnabled config).config.InsecureOptions ≠ [] := by
    unfold NewRktClient.rkt
    by_cases h0 : config.InsecureOptions.length = 0
    · simp [h0]
    · simp only [beq_iff_eq, h0, if_false]
      intro h; rw [h] at h0; exact h0 rfl
  split at hm
  · simp only [Option.some.injEq] at hm
    subst hm
    cases hclient
  · split at hm
    · simp only [Option.some.injEq] at hm
      subst hm
      cases hclient
    · simp only [Option.some.injEq] at hm
      subst hm
      simp only [Option.some.injEq] at hclient
      subst hclient
      rename_i hlt
      exact ⟨⟨debugEnabled, NewRktClient.rkt_globalArgs debugEnabled config⟩, hopts,
        by simpa using hlt⟩

/-- The order of versions modelled from the spec is numeric by component: 1.4.0 is less than
1.24.0 (and not the other way round), and 1.24.0 is greater than or equal to itself. -/
theorem Version_order_examples :
    Version.LessThan "1.4.0" "1.24.0" = true ∧ Version.LessThan "1.24.0" "1.4.0" = false
      ∧ Version.GreaterThanOrEqualTo "1.24.0" rktVersionWithPullPolicy = true
      ∧ Version.LessThan "1.3.9" rktSupportedVersion = true := by
  decide

/-! ## C4: the global argument prefix -/

/-- C4. For every configuration, debug setting and insecure-options list, `prepareGlobalArgs` returns
exactly: the binary path (the configured path, `rkt` when it is empty), `--debug` iff debug logging
is enabled, `--trust-keys-from-https` iff the trust flag is set, `--user-config=`, `--local-config=`
and `--system-config=` each iff its override is non-empty, `--rkt.dir=` iff the state directory is
non-empty, and last `--insecure-options=` with the options joined by commas.  So the result is never
empty, starts with the binary path, ends with the insecure-options flag (also for no option), holds
no store flag after the binary path, and `globalArgs[1:]` in `argsStore` does not panic on it. -/
theorem prepareGlobalArgs_composition (debugEnabled : Bool) (cfg : RktConfig)
    (opts : List String) :
    cfg.prepareGlobalArgs debugEnabled opts =
        (if cfg.Path = "" then "rkt" else cfg.Path) ::
          ((if debugEnabled = true then ["--debug"] else [])
            ++ (if cfg.TrustKeysFromHttps = true then ["--trust-keys-from-https"] else [])
            ++ (if cfg.UserConfig = "" then [] else ["--user-config=" ++ cfg.UserConfig])
            ++ (if cfg.LocalConfig = "" then [] else ["--local-config=" ++ cfg.LocalConfig])
            ++ (if cfg.SystemConfig = "" then [] else ["--system-config=" ++ cfg.SystemConfig])
            ++ (if cfg.dir = "" then [] else ["--rkt.dir=" ++ cfg.dir])
            ++ ["--insecure-options=" ++ String.intercalate "," opts])
      ∧ cfg.prepareGlobalArgs debugEnabled opts ≠ []
      ∧ (cfg.prepareGlobalArgs debugEnabled opts).head? =
          some (if cfg.Path = "" then "rkt" else cfg.Path)
      ∧ (cfg.prepareGlobalArgs debugEnabled opts).getLast? =
          some ("--insecure-options=" ++ String.intercalate "," opts)
      ∧ (∀ flag ∈ (cfg.prepareGlobalArgs debugEnabled opts).tail,
          flag ≠ "--no-store" ∧ flag ≠ "--store-only")
      ∧ (∀ (rkt : RktClient) (cmd cmdArgs : List String),
          (rkt.argsStore cmd (cfg.prepareGlobalArgs debugEnabled opts) cmdArgs).isSome = true) := by
  refine ⟨prepareGlobalArgs_eq _ _ _, ?_, ?_, prepareGlobalArgs_getLast _ _ _,
    prepareGlobalArgs_tail_no_store _ _ _, ?_⟩
  · rw [prepareGlobalArgs_eq]; exact List.cons_ne_nil _ _
  · rw [prepareGlobalArgs_eq]; rfl
  · intro rkt cmd cmdArgs
    rw [prepareGlobalArgs_eq]
    rfl

/-- C4, at a configuration with every option set and at the empty configuration. -/
theorem prepareGlobalArgs_composition_witness :
    RktConfig.prepareGlobalArgs true
        ⟨"/usr/bin/rkt", [], "/var/lib/rkt", "/etc/rkt", "/usr/lib/rkt", "/home/u/.config/rkt", "",
          true, true, true⟩ ["tls", "image"] =
      ["/usr/bin/rkt", "--debug", "--trust-keys-from-https", "--user-config=/home/u/.config/rkt",
        "--local-config=/etc/rkt", "--system-config=/usr/lib/rkt", "--rkt.dir=/var/lib/rkt",
        "--insecure-options=tls,image"]
      ∧ RktConfig.prepareGlobalArgs false ⟨"", [], "", "", "", "", "", false, false, false⟩ [] =
        ["rkt", "--insecure-options="] := by
  constructor
  · rw [(prepareGlobalArgs_composition _ _ _).1]; decide
  · rw [(prepareGlobalArgs_composition _ _ _).1]; decide

/-! ## C8: the encoding of the insecure options -/

/-- C8, refuted as stated. For the options `TLS`, `image` the composed flag is
`--insecure-options=TLS,image`, not `--insecure-options=tls,image`: it is not the options in lower
case; and `TLS` and `tls`, which differ only in letter case, do not encode identically. -/
theorem insecure_options_flag_not_lower_case :
    RktConfig.prepareGlobalArgs false ⟨"", [], "", "", "", "", "", false, false, false⟩
        ["TLS", "image"] = ["rkt", "--insecure-options=TLS,image"]
      ∧ "--insecure-options=TLS,image" ≠
          "--insecure-options=" ++ String.intercalate "," (["TLS", "image"].map ToLower)
      ∧ "--insecure-options=" ++ String.intercalate "," (["TLS", "image"].map ToLower) =
          "--insecure-options=tls,image"
      ∧ RktConfig.prepareGlobalArgs false ⟨"", [], "", "", "", "", "", false, false, false⟩ ["TLS"] ≠
          RktConfig.prepareGlobalArgs false ⟨"", [], "", "", "", "", "", false, false, false⟩
            ["tls"] := by
  decide

/-- C8, amended. For every configuration and insecure-options list, the `--insecure-options` flag
composed by `prepareGlobalArgs`, its last element, is `--insecure-options=` followed by the options
as they are configured, letter case unchanged, joined by commas, so that `TLS` and `tls` give
different flags; for `TLS`, `image` it is `--insecure-options=TLS,image`. -/
theorem insecure_options_flag_verbatim (debugEnabled : Bool) (cfg : RktConfig)
    (opts : List String) :
    (cfg.prepareGlobalArgs debugEnabled opts).getLast? =
        some ("--insecure-options=" ++ String.intercalate "," opts)
      ∧ (cfg.prepareGlobalArgs debugEnabled ["TLS", "image"]).getLast? =
        some "--insecure-options=TLS,image"
      ∧ (cfg.prepareGlobalArgs debugEnabled ["TLS"]).getLast? ≠
        (cfg.prepareGlobalArgs debugEnabled ["tls"]).getLast? := by
  refine ⟨prepareGlobalArgs_getLast _ _ _, ?_, ?_⟩
  · rw [prepareGlobalArgs_getLast]
    decide
  · rw [prepareGlobalArgs_getLast, prepareGlobalArgs_getLast]
    decide

/-! ## C6: the minimum-version gate of `NewRktClient` -/

/-- C6. For every configuration and every behaviour of the binary, `NewRktClient` does not panic and
issues exactly one invocation, the version query `<binary> version`.  With the result of
`GetVersion` on the client under construction: if it carries an error, `NewRktClient` returns that
error and no client; if it carries a version less than 1.4.0, `NewRktClient` returns an error and no
client; if it carries a version not less than 1.4.0, `NewRktClient` returns no error and a client
whose `Version` is that version. -/
theorem NewRktClient_version_gate (debugEnabled : Bool) (rt : Runtime) (config : RktConfig) :
    ∃ ran m,
      (NewRktClient.rkt debugEnabled config).GetVersion rt = some ran
      ∧ NewRktClient debugEnabled rt config = some m
      ∧ m.calls = [⟨if config.Path = "" then "rkt" else config.Path, ["version"]⟩]
      ∧ (∀ err, ran.result.2 = some err → m.client = none ∧ m.err = some err)
      ∧ (ran.result.2 = none → ran.result.1.LessThan rktSupportedVersion = true →
          m.client = none ∧ m.err.isSome = true)
      ∧ (ran.result.2 = none → ran.result.1.LessThan rktSupportedVersion = false →
          m.err = none ∧ ∃ c, m.client = some c ∧ c.Version = ran.result.1) := by
  obtain ⟨rest, hargs⟩ := NewRktClient.rkt_globalArgs_cons debugEnabled config
  have hget := GetVersion_eq rt _ _ _ hargs
  unfold NewRktClient
  simp only [hget]
  generalize (match (rt ⟨if config.Path = "" then "rkt" else config.Path, ["version"]⟩).err with
    | some err => (("" : Dgr.Version), some (Err.WithEF err (NewRktClient.rkt debugEnabled config).fields
        "Failed to get rkt Version"))
    | none => RktClient.GetVersion.scan (NewRktClient.rkt debugEnabled config).fields
        (rt ⟨if config.Path = "" then "rkt" else config.Path, ["version"]⟩).output
        (scanLines (rt ⟨if config.Path = "" then "rkt" else config.Path, ["version"]⟩).output)) = res
  obtain ⟨v, e⟩ := res
  cases e with
  | some err =>
    refine ⟨_, _, rfl, rfl, rfl, ?_, ?_, ?_⟩
    · intro err' h
      simp only [Option.some.injEq] at h
      subst h
      exact ⟨rfl, rfl⟩
    · intro h; cases h
    · intro h; cases h
  | none =>
    by_cases hlt : Version.LessThan v rktSupportedVersion = true
    · simp only [hlt, if_true]
      refine ⟨_, _, rfl, rfl, rfl, ?_, ?_, ?_⟩
      · intro err h; cases h
      · intro _ _; exact ⟨rfl, rfl⟩
      · intro _ h; exact absurd hlt (by simp only [h]; exact Bool.false_ne_true)
    · simp only [hlt, if_false]
      refine ⟨_, _, rfl, rfl, rfl, ?_, ?_, ?_⟩
      · intro err h; cases h
      · intro _ h; exact absurd h hlt
      · intro _ _; exact ⟨rfl, _, rfl, rfl⟩

/-- C6, at the empty configuration: a binary that reports version 1.25.0 gives a client of that
version after the one version query, and a binary that reports version 1.3.0 gives an error and
no client after the one version query. -/
theorem NewRktClient_version_gate_witness :
    (∃ m c, NewRktClient false (fun _ => ⟨"rkt Version: 1.25.0\nappc Version: 0.8.10", none⟩)
        ⟨"", [], "", "", "", "", "", false, false, false⟩ = some m
      ∧ m.calls = [⟨"rkt", ["version"]⟩] ∧ m.client = some c ∧ c.Version = "1.25.0"
      ∧ m.err = none)
    ∧ (∃ m, NewRktClient false (fun _ => ⟨"rkt Version: 1.3.0\nappc Version: 0.7.4", none⟩)
        ⟨"", [], "", "", "", "", "", false, false, false⟩ = some m
      ∧ m.calls = [⟨"rkt", ["version"]⟩] ∧ m.client = none ∧ m.err.isSome = true) := by
  constructor
  · obtain ⟨ran, m, h1, h2, h3, _, _, h6⟩ := NewRktClient_version_gate false
      (fun _ => ⟨"rkt Version: 1.25.0\nappc Version: 0.8.10", none⟩)
      ⟨"", [], "", "", "", "", "", false, false, false⟩
    have hres : ran.result = ("1.25.0", none) := by
      have hval : ((NewRktClient.rkt false
          ⟨"", [], "", "", "", "", "", false, false, false⟩).GetVersion
          (fun _ => ⟨"rkt Version: 1.25.0\nappc Version: 0.8.10", none⟩)).map
            (fun r => r.result) = some ("1.25.0", none) := by decide
      rw [h1] at hval
      simpa using hval
    obtain ⟨herr, c, hc, hv⟩ := h6 (by rw [hres]) (by rw [hres]; decide)
    exact ⟨m, c, h2, h3, hc, by rw [hv, hres], herr⟩
  · obtain ⟨ran, m, h1, h2, h3, _, h5, _⟩ := NewRktClient_version_gate false
      (fun _ => ⟨"rkt Version: 1.3.0\nappc Version: 0.7.4", none⟩)
      ⟨"", [], "", "", "", "", "", false, false, false⟩
    have hres : ran.result = ("1.3.0", none) := by
      have hval : ((NewRktClient.rkt false
          ⟨"", [], "", "", "", "", "", false, false, false⟩).GetVersion
          (fun _ => ⟨"rkt Version: 1.3.0\nappc Version: 0.7.4", none⟩)).map
            (fun r => r.result) = some ("1.3.0", none) := by decide
      rw [h1] at hval
      simpa using hval
    obtain ⟨hc, he⟩ := h5 (by rw [hres]) (by rw [hres]; decide)
    exact ⟨m, h2, h3, hc, he⟩

/-! ## C2, C3: the arguments composed by `Fetch` -/

/-- The arguments that follow the global ones in a fetch: dropping the last one and keeping what
starts with `q` leaves what `pre` holds of it, when none of the fixed words starts with `q`; and the
last argument is the image. -/
theorem fetch_args_filter (q : String) (pre : List String) (ns so : Prop) [Decidable ns]
    [Decidable so] (image : String) (hf : startsWith "fetch" q = false)
    (hns : startsWith "--no-store" q = false) (hso : startsWith "--store-only" q = false)
    (hfull : startsWith "--full" q = false) :
    (pre ++ ["fetch"] ++ (if ns then ["--no-store"] else [])
        ++ (if so then ["--store-only"] else []) ++ ["--full", image]).dropLast.filter
        (fun a => startsWith a q) = pre.filter (fun a => startsWith a q)
      ∧ (pre ++ ["fetch"] ++ (if ns then ["--no-store"] else [])
        ++ (if so then ["--store-only"] else []) ++ ["--full", image]).getLast? = some image := by
  have hsplit : ∀ l : List String, l ++ ["--full", image] = (l ++ ["--full"]) ++ [image] := by
    intro l; simp
  rw [hsplit, List.dropLast_concat, List.getLast?_concat]
  refine ⟨?_, rfl⟩
  simp only [List.filter_append]
  rw [filter_ite_singleton_false (fun a => startsWith a q) _ _ hns,
    filter_ite_singleton_false (fun a => startsWith a q) _ _ hso]
  simp [hf, hfull]

/-- The arguments that follow the global ones in a fetch, the image included: what starts with `q`
is what `pre` holds of it, when neither the fixed words nor the image starts with `q`. -/
theorem fetch_args_filter_all (q : String) (pre : List String) (ns so : Prop) [Decidable ns]
    [Decidable so] (image : String) (hf : startsWith "fetch" q = false)
    (hns : startsWith "--no-store" q = false) (hso : startsWith "--store-only" q = false)
    (hfull : startsWith "--full" q = false) (himg : startsWith image q = false) :
    (pre ++ ["fetch"] ++ (if ns then ["--no-store"] else [])
        ++ (if so then ["--store-only"] else []) ++ ["--full", image]).filter
        (fun a => startsWith a q) = pre.filter (fun a => startsWith a q) := by
  simp only [List.filter_append]
  rw [filter_ite_singleton_false (fun a => startsWith a q) _ _ hns,
    filter_ite_singleton_false (fun a => startsWith a q) _ _ hso]
  simp [hf, hfull, himg]

/-- C2, refuted as stated. A client built by `NewRktClient` from a binary of version 1.4.0, below
1.24.0, fetching the image reference `--pull-policy=never`, passes an argument that starts with
`--pull-policy`; and a client of version 1.24.0 fetching the image reference `--pull-policy=new`
passes two arguments `--pull-policy=new`, not exactly one. -/
theorem Fetch_pull_policy_image_counterexample :
    (NewRktClient false (fun _ => ⟨"rkt Version: 1.4.0", none⟩)
        ⟨"", [], "", "", "", "", "", false, false, false⟩).bind (fun m => m.client) =
        some ⟨"1.4.0", ⟨"", ["ondisk", "image"], "", "", "", "", "", false, false, false⟩,
          ["rkt", "--insecure-options=ondisk,image"],
          [("config", .config ⟨"", ["ondisk", "image"], "", "", "", "", "", false, false, false⟩)]⟩
      ∧ Version.GreaterThanOrEqualTo "1.4.0" rktVersionWithPullPolicy = false
      ∧ ((RktClient.mk "1.4.0" ⟨"", ["ondisk", "image"], "", "", "", "", "", false, false, false⟩
          ["rkt", "--insecure-options=ondisk,image"]
          [("config", .config ⟨"", ["ondisk", "image"], "", "", "", "", "", false, false, false⟩)]).Fetch
            (fun _ => ⟨"sha512-0", none⟩) "--pull-policy=never" "new").map (fun ran => ran.calls) =
        some [⟨"rkt", ["--insecure-options=ondisk,image", "fetch", "--full", "--pull-policy=never"]⟩]
      ∧ startsWith "--pull-policy=never" "--pull-policy" = true
      ∧ (NewRktClient false (fun _ => ⟨"rkt Version: 1.24.0", none⟩)
        ⟨"", [], "", "", "", "", "", false, false, false⟩).bind (fun m => m.client) =
        some ⟨"1.24.0", ⟨"", ["ondisk", "image"], "", "", "", "", "", false, false, false⟩,
          ["rkt", "--insecure-options=ondisk,image"],
          [("config", .config ⟨"", ["ondisk", "image"], "", "", "", "", "", false, false, false⟩)]⟩
      ∧ Version.GreaterThanOrEqualTo "1.24.0" rktVersionWithPullPolicy = true
      ∧ ((RktClient.mk "1.24.0" ⟨"", ["ondisk", "image"], "", "", "", "", "", false, false, false⟩
          ["rkt", "--insecure-options=ondisk,image"]
          [("config", .config ⟨"", ["ondisk", "image"], "", "", "", "", "", false, false, false⟩)]).Fetch
            (fun _ => ⟨"sha512-0", none⟩) "--pull-policy=new" "new").map (fun ran => ran.calls) =
        some [⟨"rkt", ["--insecure-options=ondisk,image", "--pull-policy=new", "fetch", "--full",
          "--pull-policy=new"]⟩] := by
  decide

/-- The global arguments of a built client: the binary path, then the flags composed from its
configuration. -/
theorem Built_globalArgs_cons (rkt : RktClient) (hc : rkt.Built) :
    ∃ debugEnabled, rkt.globalArgs =
      (if rkt.config.Path = "" then "rkt" else rkt.config.Path) ::
        (rkt.config.prepareGlobalArgs debugEnabled rkt.config.InsecureOptions).tail := by
  obtain ⟨⟨debugEnabled, hga⟩, _, _⟩ := Built_globalArgs rkt hc
  refine ⟨debugEnabled, ?_⟩
  rw [hga, prepareGlobalArgs_eq]
  rfl

/-- C2, amended. For every client built by `NewRktClient`, every pull policy and every image
reference that does not itself start with `--pull-policy`, `Fetch` issues one invocation of the
binary.  If the client's version is greater than or equal to 1.24.0, its argument vector contains
exactly one element that starts with `--pull-policy`, and it is `--pull-policy=<value>` for the
effective pull policy (the configured one when it is non-empty, otherwise the one passed).  If the
version is below 1.24.0, no element of the argument vector starts with `--pull-policy`, and `Fetch`
returns the output of the binary without error whenever the invocation itself succeeds. -/
theorem Fetch_pull_policy_gate (rkt : RktClient) (hc : rkt.Built) (rt : Runtime) (image : String)
    (pullPolicy : PullPolicy) (himg : startsWith image "--pull-policy" = false) :
    ∃ ran args,
      rkt.Fetch rt image pullPolicy = some ran
      ∧ ran.calls = [⟨if rkt.config.Path = "" then "rkt" else rkt.config.Path, args⟩]
      ∧ (rkt.Version.GreaterThanOrEqualTo rktVersionWithPullPolicy = true →
          args.filter (fun a => startsWith a "--pull-policy") =
            ["--pull-policy=" ++
              (if rkt.config.PullPolicy = "" then pullPolicy else rkt.config.PullPolicy)])
      ∧ (rkt.Version.GreaterThanOrEqualTo rktVersionWithPullPolicy = false →
          (∀ a ∈ args, startsWith a "--pull-policy" = false)
          ∧ ((rt ⟨if rkt.config.Path = "" then "rkt" else rkt.config.Path, args⟩).err = none →
              ran.result =
                ((rt ⟨if rkt.config.Path = "" then "rkt" else rkt.config.Path, args⟩).output,
                  none))) := by
  obtain ⟨debugEnabled, hcons⟩ := Built_globalArgs_cons rkt hc
  have hfetch := Fetch_eq rt rkt image pullPolicy _ _ _ hcons rfl
  have hfilter := fetch_args_filter_all "--pull-policy"
    ((rkt.config.prepareGlobalArgs debugEnabled rkt.config.InsecureOptions).tail
      ++ (if rkt.Version.GreaterThanOrEqualTo rktVersionWithPullPolicy = true then
            ["--pull-policy=" ++ (if rkt.config.PullPolicy = "" then pullPolicy
              else rkt.config.PullPolicy)]
          else []))
    (rkt.config.NoStore = true) (rkt.config.StoreOnly = true) image
    (by decide) (by decide) (by decide) (by decide) himg
  refine ⟨_, _, hfetch, rfl, ?_, ?_⟩
  · intro hge
    rw [hfilter, List.filter_append, prepareGlobalArgs_tail_filter_pull_policy]
    simp [hge, startsWith_append_true _ _ _
      (by decide : ("--pull-policy" : String).data.isPrefixOf
        ("--pull-policy=" : String).data = true)]
  · intro hlt
    refine ⟨?_, ?_⟩
    · have hnil : (((rkt.config.prepareGlobalArgs debugEnabled rkt.config.InsecureOptions).tail
          ++ (if rkt.Version.GreaterThanOrEqualTo rktVersionWithPullPolicy = true then
                ["--pull-policy=" ++ (if rkt.config.PullPolicy = "" then pullPolicy
                  else rkt.config.PullPolicy)]
              else []))
          ++ ["fetch"] ++ (if rkt.config.NoStore = true then ["--no-store"] else [])
          ++ (if rkt.config.StoreOnly = true then ["--store-only"] else [])
          ++ ["--full", image]).filter (fun a => startsWith a "--pull-policy") = [] := by
        rw [hfilter, List.filter_append, prepareGlobalArgs_tail_filter_pull_policy]
        simp [hlt]
      intro a ha
      have := List.filter_eq_nil_iff.mp hnil a ha
      simpa using this
    · intro herr
      simp only [herr]

/-- C2, amended, at the clients built from binaries of versions 1.25.0 and 1.4.0 with no pull
policy configured, fetching `example.com/app:1` with policy `update`. -/
theorem Fetch_pull_policy_gate_witness :
    (∃ ran args,
      (RktClient.mk "1.25.0" ⟨"", ["ondisk", "image"], "", "", "", "", "", false, false, false⟩
          ["rkt", "--insecure-options=ondisk,image"]
          [("config", .config ⟨"", ["ondisk", "image"], "", "", "", "", "", false, false, false⟩)]).Fetch
            (fun _ => ⟨"sha512-0", none⟩) "example.com/app:1" "update" = some ran
      ∧ ran.calls = [⟨"rkt", args⟩]
      ∧ args.filter (fun a => startsWith a "--pull-policy") = ["--pull-policy=update"])
    ∧ (∃ ran args,
      (RktClient.mk "1.4.0" ⟨"", ["ondisk", "image"], "", "", "", "", "", false, false, false⟩
          ["rkt", "--insecure-options=ondisk,image"]
          [("config", .config ⟨"", ["ondisk", "image"], "", "", "", "", "", false, false, false⟩)]).Fetch
            (fun _ => ⟨"sha512-0", none⟩) "example.com/app:1" "update" = some ran
      ∧ ran.calls = [⟨"rkt", args⟩]
      ∧ (∀ a ∈ args, startsWith a "--pull-policy" = false)
      ∧ ran.result = ("sha512-0", none)) := by
  constructor
  · obtain ⟨ran, args, h1, h2, h3, _⟩ := Fetch_pull_policy_gate
      (RktClient.mk "1.25.0" ⟨"", ["ondisk", "image"], "", "", "", "", "", false, false, false⟩
        ["rkt", "--insecure-options=ondisk,image"]
        [("config", .config ⟨"", ["ondisk", "image"], "", "", "", "", "", false, false, false⟩)])
      ⟨false, fun _ => ⟨"rkt Version: 1.25.0", none⟩,
        ⟨"", [], "", "", "", "", "", false, false, false⟩, ⟨[⟨"rkt", ["version"]⟩], _, none⟩,
        by decide, rfl⟩
      (fun _ => ⟨"sha512-0", none⟩) "example.com/app:1" "update" (by decide)
    exact ⟨ran, args, h1, h2, h3 (by decide)⟩
  · obtain ⟨ran, args, h1, h2, _, h4⟩ := Fetch_pull_policy_gate
      (RktClient.mk "1.4.0" ⟨"", ["ondisk", "image"], "", "", "", "", "", false, false, false⟩
        ["rkt", "--insecure-options=ondisk,image"]
        [("config", .config ⟨"", ["ondisk", "image"], "", "", "", "", "", false, false, false⟩)])
      ⟨false, fun _ => ⟨"rkt Version: 1.4.0", none⟩,
        ⟨"", [], "", "", "", "", "", false, false, false⟩, ⟨[⟨"rkt", ["version"]⟩], _, none⟩,
        by decide, rfl⟩
      (fun _ => ⟨"sha512-0", none⟩) "example.com/app:1" "update" (by decide)
    exact ⟨ran, args, h1, h2, (h4 (by decide)).1, (h4 (by decide)).2 rfl⟩

/-- C3, refuted as stated. The client built from a binary of version 1.24.0 with the default
configuration, fetching `example.com/app:1` with policy `new`, passes `--pull-policy=new` before
the subcommand `fetch`, not between `--full` and the image reference. -/
theorem Fetch_pull_policy_position_counterexample :
    (NewRktClient false (fun _ => ⟨"rkt Version: 1.24.0", none⟩)
        ⟨"", [], "", "", "", "", "", false, false, false⟩).bind (fun m => m.client) =
        some ⟨"1.24.0", ⟨"", ["ondisk", "image"], "", "", "", "", "", false, false, false⟩,
          ["rkt", "--insecure-options=ondisk,image"],
          [("config", .config ⟨"", ["ondisk", "image"], "", "", "", "", "", false, false, false⟩)]⟩
      ∧ ((RktClient.mk "1.24.0" ⟨"", ["ondisk", "image"], "", "", "", "", "", false, false, false⟩
          ["rkt", "--insecure-options=ondisk,image"]
          [("config", .config ⟨"", ["ondisk", "image"], "", "", "", "", "", false, false, false⟩)]).Fetch
            (fun _ => ⟨"sha512-0", none⟩) "example.com/app:1" "new").map (fun ran => ran.calls) =
        some [⟨"rkt", ["--insecure-options=ondisk,image", "--pull-policy=new", "fetch", "--full",
          "example.com/app:1"]⟩]
      ∧ ((RktClient.mk "1.24.0" ⟨"", ["ondisk", "image"], "", "", "", "", "", false, false, false⟩
          ["rkt", "--insecure-options=ondisk,image"]
          [("config", .config ⟨"", ["ondisk", "image"], "", "", "", "", "", false, false, false⟩)]).Fetch
            (fun _ => ⟨"sha512-0", none⟩) "example.com/app:1" "new").map (fun ran => ran.calls) ≠
        some [⟨"rkt", ["--insecure-options=ondisk,image", "fetch", "--full", "--pull-policy=new",
          "example.com/app:1"]⟩] := by
  decide

/-- C3, amended. For every client built by `NewRktClient`, every image reference and pull policy,
`Fetch` issues one invocation, of the binary path, whose arguments are, in this order: the global
arguments without the binary path, the flag `--pull-policy=<effective policy>` when the version is
greater than or equal to 1.24.0, the subcommand `fetch`, `--no-store` iff the no-store option is
configured, `--store-only` iff the store-only option is configured, `--full`, and last the image
reference. -/
theorem Fetch_argument_order (rkt : RktClient) (hc : rkt.Built) (rt : Runtime) (image : String)
    (pullPolicy : PullPolicy) :
    ∃ ran,
      rkt.Fetch rt image pullPolicy = some ran
      ∧ rkt.globalArgs.head? = some (if rkt.config.Path = "" then "rkt" else rkt.config.Path)
      ∧ ran.calls =
        [⟨if rkt.config.Path = "" then "rkt" else rkt.config.Path,
          rkt.globalArgs.tail
            ++ (if rkt.Version.GreaterThanOrEqualTo rktVersionWithPullPolicy = true then
                  ["--pull-policy=" ++
                    (if rkt.config.PullPolicy = "" then pullPolicy else rkt.config.PullPolicy)]
                else [])
            ++ ["fetch"]
            ++ (if rkt.config.NoStore = true then ["--no-store"] else [])
            ++ (if rkt.config.StoreOnly = true then ["--store-only"] else [])
            ++ ["--full"]
            ++ [image]⟩] := by
  obtain ⟨debugEnabled, hcons⟩ := Built_globalArgs_cons rkt hc
  have hfetch := Fetch_eq rt rkt image pullPolicy _ _ _ hcons rfl
  refine ⟨_, hfetch, ?_, ?_⟩
  · rw [hcons]; rfl
  · rw [hcons]
    simp

/-- C3, amended, at the client built from a binary of version 1.25.0 with both store options and
the pull policy `update` configured. -/
theorem Fetch_argument_order_witness :
    ∃ ran,
      (RktClient.mk "1.25.0" ⟨"", ["tls"], "", "", "", "", "update", false, true, true⟩
          ["rkt", "--insecure-options=tls"]
          [("config", .config ⟨"", ["tls"], "", "", "", "", "update", false, true, true⟩)]).Fetch
            (fun _ => ⟨"sha512-0", none⟩) "example.com/app:1" "new" = some ran
      ∧ ran.calls = [⟨"rkt", ["--insecure-options=tls", "--pull-policy=update", "fetch",
          "--no-store", "--store-only", "--full", "example.com/app:1"]⟩] := by
  obtain ⟨ran, h1, _, h3⟩ := Fetch_argument_order
    (RktClient.mk "1.25.0" ⟨"", ["tls"], "", "", "", "", "update", false, true, true⟩
      ["rkt", "--insecure-options=tls"]
      [("config", .config ⟨"", ["tls"], "", "", "", "", "update", false, true, true⟩)])
    ⟨false, fun _ => ⟨"rkt Version: 1.25.0", none⟩,
      ⟨"", ["tls"], "", "", "", "", "update", false, true, true⟩, ⟨[⟨"rkt", ["version"]⟩], _, none⟩,
      by decide, rfl⟩
    (fun _ => ⟨"sha512-0", none⟩) "example.com/app:1" "new"
  exact ⟨ran, h1, h3⟩

/-! ## Slices in memory: what `append` leaves as it was -/

theorem Store.array_set_self (st : Store) (a : Nat) (v : List String) (h : a < st.length) :
    Store.array (st.set a v) a = v := by
  unfold Store.array
  rw [List.getElem?_set_self h]
  rfl

theorem Store.array_set_ne (st : Store) (a b : Nat) (v : List String) (h : a ≠ b) :
    Store.array (st.set a v) b = Store.array st b := by
  unfold Store.array
  rw [List.getElem?_set_ne h]

theorem Store.array_append_left (st more : Store) (a : Nat) (h : a < st.length) :
    Store.array (st ++ more) a = Store.array st a := by
  unfold Store.array
  rw [List.getElem?_append_left h]

theorem Store.array_append_length (st : Store) (v : List String) :
    Store.array (st ++ [v]) st.length = v := by
  unfold Store.array
  rw [List.getElem?_concat_length]
  rfl

theorem Store.view_length (st : Store) (s : Slice) (h : st.Holds s) :
    (st.view s).length = s.len := by
  unfold Store.view
  obtain ⟨_, h2, h3⟩ := h
  rw [List.length_take, List.length_drop]
  omega

/-- Writing past the first `i` elements of an array changes no slice that ends at `i` or
before. -/
theorem take_drop_write (a xs r : List String) (i off len : Nat) (hi : i ≤ a.length)
    (h : off + len ≤ i) :
    ((a.take i ++ xs ++ r).drop off).take len = (a.drop off).take len := by
  rw [List.take_drop, List.take_drop, List.append_assoc,
    List.take_append_of_le_length (by rw [List.length_take]; omega), List.take_take]
  congr 2
  omega

theorem Inv_append (grow : Nat → Nat → Nat) (ts : List (Slice × List String)) (c : Cur)
    (l xs : List String) (h : Inv ts c l) : Inv ts (c.append grow xs) (l ++ xs) := by
  obtain ⟨⟨h1, h2, h3⟩, hv, hts⟩ := h
  unfold Cur.append
  by_cases hfit : c.s.len + xs.length ≤ c.s.cap
  · simp only [hfit, if_true]
    have hlen : ((c.st.array c.s.arr).take (c.s.off + c.s.len) ++ xs
        ++ (c.st.array c.s.arr).drop (c.s.off + c.s.len + xs.length)).length =
        (c.st.array c.s.arr).length := by
      simp only [List.length_append, List.length_take, List.length_drop]
      omega
    refine ⟨⟨?_, ?_, ?_⟩, ?_, ?_⟩
    · simpa using h1
    · exact hfit
    · show c.s.off + c.s.cap ≤ (Store.array (c.st.set c.s.arr _) c.s.arr).length
      rw [Store.array_set_self _ _ _ h1, hlen]
      exact h3
    · show ((Store.array (c.st.set c.s.arr _) c.s.arr).drop c.s.off).take
        (c.s.len + xs.length) = l ++ xs
      rw [Store.array_set_self _ _ _ h1, List.take_drop,
        show c.s.off + (c.s.len + xs.length) = c.s.off + c.s.len + xs.length by omega,
        List.take_left' (by simp only [List.length_append, List.length_take]; omega),
        List.drop_append_of_le_length (by rw [List.length_take]; omega), ← List.take_drop]
      rw [← hv]
      rfl
    · intro p hp
      obtain ⟨⟨t1, t2, t3⟩, tv, hclear⟩ := hts p hp
      by_cases harr : p.1.arr = c.s.arr
      · have hend : p.1.off + p.1.len ≤ c.s.off + c.s.len := by
          rcases hclear with hne | hle
          · exact absurd harr hne
          · exact hle
        refine ⟨⟨by simpa using t1, t2, ?_⟩, ?_, Or.inr (by simp only; omega)⟩
        · show p.1.off + p.1.cap ≤ (Store.array (c.st.set c.s.arr _) p.1.arr).length
          rw [harr, Store.array_set_self _ _ _ h1, hlen, ← harr]
          exact t3
        · show ((Store.array (c.st.set c.s.arr _) p.1.arr).drop p.1.off).take p.1.len = p.2
          rw [harr, Store.array_set_self _ _ _ h1,
            take_drop_write _ _ _ _ _ _ (by omega) hend, ← tv]
          unfold Store.view
          rw [harr]
      · refine ⟨⟨by simpa using t1, t2, ?_⟩, ?_, Or.inl harr⟩
        · show p.1.off + p.1.cap ≤ (Store.array (c.st.set c.s.arr _) p.1.arr).length
          rw [Store.array_set_ne _ _ _ _ (Ne.symm harr)]
          exact t3
        · show ((Store.array (c.st.set c.s.arr _) p.1.arr).drop p.1.off).take p.1.len = p.2
          rw [Store.array_set_ne _ _ _ _ (Ne.symm harr)]
          exact tv
  · simp only [hfit, if_false]
    have hvl := Store.view_length c.st c.s ⟨h1, h2, h3⟩
    refine ⟨⟨?_, ?_, ?_⟩, ?_, ?_⟩
    · simp
    · exact Nat.le_max_left _ _
    · show 0 + _ ≤ (Store.array (c.st ++ [_]) c.st.length).length
      rw [Store.array_append_length]
      simp only [List.length_append, List.length_replicate, hvl]
      omega
    · show ((Store.array (c.st ++ [_]) c.st.length).drop 0).take (c.s.len + xs.length) = l ++ xs
      rw [Store.array_append_length, List.drop_zero,
        List.take_left' (by simp only [List.length_append, hvl]), hv]
    · intro p hp
      obtain ⟨⟨t1, t2, t3⟩, tv, _⟩ := hts p hp
      refine ⟨⟨by simp only [List.length_append]; omega, t2, ?_⟩, ?_, Or.inl (by
        show p.1.arr ≠ c.st.length
        omega)⟩
      · show p.1.off + p.1.cap ≤ (Store.array (c.st ++ [_]) p.1.arr).length
        rw [Store.array_append_left _ _ _ t1]
        exact t3
      · show ((Store.array (c.st ++ [_]) p.1.arr).drop p.1.off).take p.1.len = p.2
        rw [Store.array_append_left _ _ _ t1]
        exact tv


theorem Inv_empty (ts : List (Slice × List String)) (st : Store)
    (h : ∀ p ∈ ts, st.Holds p.1 ∧ st.view p.1 = p.2) : Inv ts (Cur.empty st) [] := by
  unfold Cur.empty
  refine ⟨⟨by simp, Nat.le_refl _, ?_⟩, ?_, ?_⟩
  · show 0 + 0 ≤ (Store.array (st ++ [[]]) st.length).length
    exact Nat.zero_le _
  · show ((Store.array (st ++ [[]]) st.length).drop 0).take 0 = []
    rfl
  · intro p hp
    obtain ⟨⟨t1, t2, t3⟩, tv⟩ := h p hp
    refine ⟨⟨by simp only [List.length_append]; omega, t2, ?_⟩, ?_, Or.inl (by
      show p.1.arr ≠ st.length
      omega)⟩
    · show p.1.off + p.1.cap ≤ (Store.array (st ++ [[]]) p.1.arr).length
      rw [Store.array_append_left _ _ _ t1]
      exact t3
    · show ((Store.array (st ++ [[]]) p.1.arr).drop p.1.off).take p.1.len = p.2
      rw [Store.array_append_left _ _ _ t1]
      exact tv

theorem Inv_append_eq (grow : Nat → Nat → Nat) (ts : List (Slice × List String)) (c : Cur)
    (l xs xs' : List String) (h : Inv ts c l) (hxs : xs = xs') :
    Inv ts (c.append grow xs) (l ++ xs') :=
  hxs ▸ Inv_append grow ts c l xs h

theorem Inv_ite (grow : Nat → Nat → Nat) (ts : List (Slice × List String)) (c : Cur)
    (l xs : List String) (b : Bool) (h : Inv ts c l) :
    Inv ts (if b = true then c.append grow xs else c) (if b = true then l ++ xs else l) := by
  cases b
  · exact h
  · exact Inv_append grow ts c l xs h

theorem Inv_mono (ts ts' : List (Slice × List String)) (c : Cur) (l : List String)
    (hsub : ∀ p ∈ ts, p ∈ ts') (h : Inv ts' c l) : Inv ts c l :=
  ⟨h.1, h.2.1, fun p hp => h.2.2 p (hsub p hp)⟩

/-- The slice `s[1:]` of a working slice that holds `x :: l` holds `l`. -/
theorem Inv_from1 (ts : List (Slice × List String)) (st : Store) (s : Slice) (x : String)
    (l : List String) (h : Inv ts ⟨st, s⟩ (x :: l)) :
    ∃ rest, s.from1 = some rest ∧ Inv ts ⟨st, rest⟩ l := by
  obtain ⟨⟨h1, h2, h3⟩, hv, hts⟩ := h
  have hlen : s.len = l.length + 1 := by
    have := Store.view_length st s ⟨h1, h2, h3⟩
    rw [hv] at this
    simpa using this.symm
  refine ⟨⟨s.arr, s.off + 1, s.len - 1, s.cap - 1⟩, ?_, ⟨h1, ?_, ?_⟩, ?_, ?_⟩
  · unfold Slice.from1
    simp [hlen]
  · show s.len - 1 ≤ s.cap - 1
    have : s.len ≤ s.cap := h2
    omega
  · show s.off + 1 + (s.cap - 1) ≤ (st.array s.arr).length
    have : s.off + s.cap ≤ (st.array s.arr).length := h3
    have : s.len ≤ s.cap := h2
    omega
  · show ((st.array s.arr).drop (s.off + 1)).take (s.len - 1) = l
    have hv' : ((st.array s.arr).drop s.off).take s.len = x :: l := hv
    rw [hlen] at hv' ⊢
    rw [← List.drop_drop, Nat.add_sub_cancel]
    cases hd : (st.array s.arr).drop s.off with
    | nil => rw [hd] at hv'; simp at hv'
    | cons y ys =>
      rw [hd] at hv'
      simp only [List.take_succ_cons, List.cons.injEq] at hv'
      simpa using hv'.2
  · intro p hp
    obtain ⟨hh, tv, hclear⟩ := hts p hp
    refine ⟨hh, tv, ?_⟩
    rcases hclear with hne | hle
    · exact Or.inl hne
    · refine Or.inr ?_
      show p.1.off + p.1.len ≤ s.off + 1 + (s.len - 1)
      have : p.1.off + p.1.len ≤ s.off + s.len := hle
      omega

/-- The slice-level `prepareGlobalArgs` returns a slice that holds what the list-level one
returns, in a memory where every tracked slice holds what it held. -/
theorem Slices.prepareGlobalArgs_spec (grow : Nat → Nat → Nat) (debugEnabled : Bool)
    (cfg : RktConfig) (st : Store) (optsAt : Slice) (opts : List String)
    (ts : List (Slice × List String)) (hat : (optsAt, opts) ∈ ts)
    (h : ∀ p ∈ ts, st.Holds p.1 ∧ st.view p.1 = p.2) :
    Inv ts (Slices.prepareGlobalArgs grow debugEnabled cfg st optsAt)
      (cfg.prepareGlobalArgs debugEnabled opts) := by
  have h0 := Inv_empty ts st h
  have h1 := Inv_append grow ts _ _ [if cfg.Path != "" then cfg.Path else "rkt"] h0
  have h2 := Inv_ite grow ts _ _ ["--debug"] debugEnabled h1
  have h3 := Inv_ite grow ts _ _ ["--trust-keys-from-https"] cfg.TrustKeysFromHttps h2
  have h4 := Inv_ite grow ts _ _ ["--user-config=" ++ cfg.UserConfig] (cfg.UserConfig != "") h3
  have h5 := Inv_ite grow ts _ _ ["--local-config=" ++ cfg.LocalConfig] (cfg.LocalConfig != "") h4
  have h6 := Inv_ite grow ts _ _ ["--system-config=" ++ cfg.SystemConfig]
    (cfg.SystemConfig != "") h5
  have h7 := Inv_ite grow ts _ _ ["--rkt.dir=" ++ cfg.dir] (cfg.dir != "") h6
  have hview : Store.view _ optsAt = opts := (h7.2.2 (optsAt, opts) hat).2.1
  unfold Slices.prepareGlobalArgs RktConfig.prepareGlobalArgs
  refine Inv_append_eq grow ts _ _ _ _ h7 ?_
  rw [hview]

/-- The slice-level `argsStore` panics when the list-level one does, and otherwise returns a
slice that holds what the list-level one returns, in a memory where every tracked slice holds
what it held. -/
theorem Slices.argsStore_spec (grow : Nat → Nat → Nat) (rkt : RktClient)
    (cmd cmdArgs : List String) (ts : List (Slice × List String)) (c : Cur) (l : List String)
    (h : Inv ts c l) :
    match rkt.argsStore cmd l cmdArgs with
    | none => Slices.argsStore grow rkt cmd c cmdArgs = none
    | some args => ∃ c', Slices.argsStore grow rkt cmd c cmdArgs = some c' ∧ Inv ts c' args := by
  cases l with
  | nil =>
    have hlen : c.s.len = 0 := by
      have := Store.view_length c.st c.s h.1
      rw [h.2.1] at this
      simpa using this.symm
    show Slices.argsStore grow rkt cmd c cmdArgs = none
    unfold Slices.argsStore Slice.from1
    simp [hlen]
  | cons x l =>
    obtain ⟨rest, hrest, hinv⟩ := Inv_from1 ts c.st c.s x l h
    have h1 := Inv_append grow ts _ _ cmd hinv
    have h2 := Inv_ite grow ts _ _ ["--no-store"] rkt.config.NoStore h1
    have h3 := Inv_ite grow ts _ _ ["--store-only"] rkt.config.StoreOnly h2
    have h4 := Inv_append grow ts _ _ cmdArgs h3
    refine ⟨_, ?_, h4⟩
    unfold Slices.argsStore
    rw [hrest]

theorem Inv_ite_append (grow : Nat → Nat → Nat) (ts : List (Slice × List String)) (c : Cur)
    (l xs : List String) (b : Bool) (h : Inv ts c l) :
    Inv ts (if b = true then c.append grow xs else c) (l ++ if b = true then xs else []) := by
  cases b
  · simpa using h
  · exact Inv_append grow ts c l xs h

/-- A client held in memory, with either of its two slices as the working slice. -/
theorem Inv_of_Represents (st : Store) (loc : Slices.Client) (rkt : RktClient)
    (h : Slices.Represents st loc rkt) :
    Inv [(loc.options, rkt.config.InsecureOptions), (loc.globalArgs, rkt.globalArgs)]
        ⟨st, loc.options⟩ rkt.config.InsecureOptions
      ∧ Inv [(loc.options, rkt.config.InsecureOptions), (loc.globalArgs, rkt.globalArgs)]
        ⟨st, loc.globalArgs⟩ rkt.globalArgs := by
  obtain ⟨h1, h2, hne, hv1, hv2⟩ := h
  refine ⟨⟨h1, hv1, ?_⟩, ⟨h2, hv2, ?_⟩⟩
  · intro p hp
    simp only [List.mem_cons, List.mem_singleton, List.mem_nil_iff, or_false] at hp
    rcases hp with rfl | rfl
    · exact ⟨h1, hv1, Or.inr (Nat.le_refl _)⟩
    · exact ⟨h2, hv2, Or.inl (Ne.symm hne)⟩
  · intro p hp
    simp only [List.mem_cons, List.mem_singleton, List.mem_nil_iff, or_false] at hp
    rcases hp with rfl | rfl
    · exact ⟨h1, hv1, Or.inl hne⟩
    · exact ⟨h2, hv2, Or.inr (Nat.le_refl _)⟩

/-- The last step of `Slices.Fetch` and `Slices.FetchInsecure`: with the working slice holding
`x :: l`, the invocation issued is the one composed on lists, and the client is held in the
memory left. -/
theorem Slices.issue_spec (grow : Nat → Nat → Nat) (rkt : RktClient) (loc : Slices.Client)
    (ts : List (Slice × List String)) (c : Cur) (head x : String) (gflags l : List String)
    (image : String) (hg : rkt.globalArgs = head :: gflags)
    (hne : loc.options.arr ≠ loc.globalArgs.arr)
    (ho : (loc.options, rkt.config.InsecureOptions) ∈ ts)
    (hga : (loc.globalArgs, rkt.globalArgs) ∈ ts) (h : Inv ts c (x :: l)) :
    ∃ st',
      (match c.st.view loc.globalArgs,
          Slices.argsStore grow rkt ["fetch"] c ["--full", image] with
        | head :: _, some args => some (args.st, (⟨head, args.st.view args.s⟩ : Invocation))
        | _, _ => none) =
        some (st', ⟨head, l ++ ["fetch"]
          ++ (if rkt.config.NoStore = true then ["--no-store"] else [])
          ++ (if rkt.config.StoreOnly = true then ["--store-only"] else [])
          ++ ["--full", image]⟩)
      ∧ Slices.Represents st' loc rkt := by
  have hs := Slices.argsStore_spec grow rkt ["fetch"] ["--full", image] ts c (x :: l) h
  rw [argsStore_cons] at hs
  obtain ⟨c', hc', hinv⟩ := hs
  have hv : c.st.view loc.globalArgs = head :: gflags := ((h.2.2 _ hga).2.1).trans hg
  rw [hv, hc']
  refine ⟨c'.st, ?_, (hinv.2.2 _ ho).1, (hinv.2.2 _ hga).1, hne, (hinv.2.2 _ ho).2.1,
    (hinv.2.2 _ hga).2.1⟩
  simp only [hinv.2.1]

/-- The slice-level `FetchInsecure` issues the invocation composed on lists and leaves the client
held in memory as it was: the elements appended go past the ends of its two slices or into new
backing arrays. -/
theorem Slices.FetchInsecure_spec (grow : Nat → Nat → Nat) (debugEnabled : Bool) (rkt : RktClient)
    (st : Store) (loc : Slices.Client) (image head : String) (gflags : List String)
    (hg : rkt.globalArgs = head :: gflags) (hr : Slices.Represents st loc rkt) :
    ∃ st',
      Slices.FetchInsecure grow debugEnabled rkt st loc image =
        some (st', ⟨head,
          (if rkt.config.InsecureOptions.HasImage = true then gflags
            else (rkt.config.prepareGlobalArgs debugEnabled
              (rkt.config.InsecureOptions ++ ["image"])).tail)
          ++ (if rkt.Version.GreaterThanOrEqualTo rktVersionWithPullPolicy = true then
                ["--pull-policy=new"] else [])
          ++ ["fetch"] ++ (if rkt.config.NoStore = true then ["--no-store"] else [])
          ++ (if rkt.config.StoreOnly = true then ["--store-only"] else [])
          ++ ["--full", image]⟩)
      ∧ Slices.Represents st' loc rkt := by
  obtain ⟨hopt, hargs⟩ := Inv_of_Represents st loc rkt hr
  unfold Slices.FetchInsecure
  rw [hr.2.2.2.1]
  by_cases hi : rkt.config.InsecureOptions.HasImage = true
  · simp only [hi, Bool.not_true, Bool.false_eq_true, if_false, if_true]
    have h0 : Inv [(loc.options, rkt.config.InsecureOptions), (loc.globalArgs, rkt.globalArgs)]
        ⟨st, loc.globalArgs⟩ (head :: gflags) := ⟨hargs.1, hargs.2.1.trans hg, hargs.2.2⟩
    have h1 := Inv_ite_append grow _ _ _ ["--pull-policy=new"]
      (rkt.Version.GreaterThanOrEqualTo rktVersionWithPullPolicy) h0
    exact Slices.issue_spec grow rkt loc _ _ head head gflags _ image hg hr.2.2.1
      (List.mem_cons_self _ _) (List.mem_cons_of_mem _ (List.mem_cons_self _ _)) h1
  · have hi' : rkt.config.InsecureOptions.HasImage = false := by simpa using hi
    simp only [hi', Bool.not_false, if_true, Bool.false_eq_true, if_false]
    have hw := Inv_append grow _ _ _ ["image"] hopt
    have hp := Slices.prepareGlobalArgs_spec grow debugEnabled rkt.config
      ((Cur.mk st loc.options).append grow ["image"]).st
      ((Cur.mk st loc.options).append grow ["image"]).s
      (rkt.config.InsecureOptions ++ ["image"])
      [(((Cur.mk st loc.options).append grow ["image"]).s, rkt.config.InsecureOptions ++ ["image"]),
        (loc.options, rkt.config.InsecureOptions), (loc.globalArgs, rkt.globalArgs)]
      (List.mem_cons_self _ _)
      (by
        intro p hp
        rcases List.mem_cons.1 hp with rfl | hp
        · exact ⟨hw.1, hw.2.1⟩
        · exact ⟨(hw.2.2 p hp).1, (hw.2.2 p hp).2.1⟩)
    rw [prepareGlobalArgs_eq] at hp
    have h1 := Inv_ite_append grow _ _ _ ["--pull-policy=new"]
      (rkt.Version.GreaterThanOrEqualTo rktVersionWithPullPolicy) hp
    rw [prepareGlobalArgs_eq, List.tail_cons]
    exact Slices.issue_spec grow rkt loc _ _ head _ gflags _ image hg hr.2.2.1
      (List.mem_cons_of_mem _ (List.mem_cons_self _ _))
      (List.mem_cons_of_mem _ (List.mem_cons_of_mem _ (List.mem_cons_self _ _))) h1

/-- The slice-level `Fetch` issues the invocation composed on lists and leaves the client held in
memory as it was. -/
theorem Slices.Fetch_spec (grow : Nat → Nat → Nat) (rkt : RktClient) (st : Store)
    (loc : Slices.Client) (image : String) (pullPolicy : PullPolicy) (head : String)
    (gflags : List String) (hg : rkt.globalArgs = head :: gflags)
    (hr : Slices.Represents st loc rkt) :
    ∃ st',
      Slices.Fetch grow rkt st loc image pullPolicy =
        some (st', ⟨head, gflags
          ++ (if rkt.Version.GreaterThanOrEqualTo rktVersionWithPullPolicy = true then
                ["--pull-policy=" ++ (if rkt.config.PullPolicy = "" then pullPolicy
                  else rkt.config.PullPolicy)]
              else [])
          ++ ["fetch"] ++ (if rkt.config.NoStore = true then ["--no-store"] else [])
          ++ (if rkt.config.StoreOnly = true then ["--store-only"] else [])
          ++ ["--full", image]⟩)
      ∧ Slices.Represents st' loc rkt := by
  obtain ⟨_, hargs⟩ := Inv_of_Represents st loc rkt hr
  unfold Slices.Fetch
  have h0 : Inv [(loc.options, rkt.config.InsecureOptions), (loc.globalArgs, rkt.globalArgs)]
      ⟨st, loc.globalArgs⟩ (head :: gflags) := ⟨hargs.1, hargs.2.1.trans hg, hargs.2.2⟩
  have h1 := Inv_ite_append grow _ _ _
    ["--pull-policy=" ++ (if rkt.config.PullPolicy != "" then rkt.config.PullPolicy
      else pullPolicy)]
    (rkt.Version.GreaterThanOrEqualTo rktVersionWithPullPolicy) h0
  have hpp : (if (rkt.config.PullPolicy != "") = true then rkt.config.PullPolicy else pullPolicy)
      = (if rkt.config.PullPolicy = "" then pullPolicy else rkt.config.PullPolicy) := by
    by_cases h : rkt.config.PullPolicy = "" <;> simp [h]
  rw [hpp] at h1
  simp only [hpp]
  exact Slices.issue_spec grow rkt loc _ _ head head gflags _ image hg hr.2.2.1
    (List.mem_cons_self _ _) (List.mem_cons_of_mem _ (List.mem_cons_self _ _)) h1

/-- Every client is held in some memory, with any contents in the spare capacity of its two
slices. -/
theorem Slices.Represents_intro (rkt : RktClient) (spare spare' : List String) :
    Slices.Represents
      [rkt.config.InsecureOptions ++ spare, rkt.globalArgs ++ spare']
      ⟨⟨0, 0, rkt.config.InsecureOptions.length, rkt.config.InsecureOptions.length + spare.length⟩,
        ⟨1, 0, rkt.globalArgs.length, rkt.globalArgs.length + spare'.length⟩⟩ rkt := by
  refine ⟨⟨?_, Nat.le_add_right _ _, ?_⟩, ⟨?_, Nat.le_add_right _ _, ?_⟩, ?_, ?_, ?_⟩
  · show 0 < 2
    decide
  · show 0 + (rkt.config.InsecureOptions.length + spare.length)
      ≤ (rkt.config.InsecureOptions ++ spare).length
    rw [List.length_append]
    omega
  · show 1 < 2
    decide
  · show 0 + (rkt.globalArgs.length + spare'.length) ≤ (rkt.globalArgs ++ spare').length
    rw [List.length_append]
    omega
  · show (0 : Nat) ≠ 1
    decide
  · show ((rkt.config.InsecureOptions ++ spare).drop 0).take _ = _
    rw [List.drop_zero, List.take_left' rfl]
  · show ((rkt.globalArgs ++ spare').drop 0).take _ = _
    rw [List.drop_zero, List.take_left' rfl]

/-- With spare capacity after the one option `tls`, the insecure fetch writes `image` into the
backing array of the insecure options, past the end of the client's slice, and composes its
arguments in a new backing array. -/
theorem Slices.FetchInsecure_writes_past_the_end :
    Slices.FetchInsecure (fun c _ => 2 * c) false
      (RktClient.mk "1.25.0" ⟨"", ["tls"], "", "", "", "", "update", false, false, false⟩
        ["rkt", "--insecure-options=tls"] [])
      [["tls", "spare"], ["rkt", "--insecure-options=tls"]]
      ⟨⟨0, 0, 1, 2⟩, ⟨1, 0, 2, 2⟩⟩ "example.com/app:1" =
    some ([["tls", "image"], ["rkt", "--insecure-options=tls"], [],
        ["rkt"], ["rkt", "--insecure-options=tls,image"],
        ["rkt", "--insecure-options=tls,image", "--pull-policy=new", "fetch"],
        ["--insecure-options=tls,image", "--pull-policy=new", "fetch", "--full",
          "example.com/app:1", ""]],
      ⟨"rkt", ["--insecure-options=tls,image", "--pull-policy=new", "fetch", "--full",
        "example.com/app:1"]⟩) := by
  decide

/-- With an option `Image` configured and spare capacity after the global arguments, the insecure
fetch writes its pull policy and the command into the backing array of the global arguments, past
the end of the client's slice. -/
theorem Slices.FetchInsecure_writes_past_the_global_arguments :
    Slices.FetchInsecure (fun c _ => 2 * c) false
      (RktClient.mk "1.25.0" ⟨"", ["TLS", "Image"], "", "", "", "", "", false, false, false⟩
        ["rkt", "--insecure-options=TLS,Image"] [])
      [["TLS", "Image"], ["rkt", "--insecure-options=TLS,Image", "", "", ""]]
      ⟨⟨0, 0, 2, 2⟩, ⟨1, 0, 2, 5⟩⟩ "example.com/app:1" =
    some ([["TLS", "Image"],
        ["rkt", "--insecure-options=TLS,Image", "--pull-policy=new", "fetch", ""],
        ["--insecure-options=TLS,Image", "--pull-policy=new", "fetch", "--full",
          "example.com/app:1", "", "", ""]],
      ⟨"rkt", ["--insecure-options=TLS,Image", "--pull-policy=new", "fetch", "--full",
        "example.com/app:1"]⟩) := by
  decide

/-- The method `HasImage` answers whether some option is `image` once put in lower case. -/
theorem HasImage_iff (opts : InsecuOptions) :
    opts.HasImage = true ↔ ∃ o ∈ opts, ToLower o = "image" := by
  induction opts with
  | nil => simp [InsecuOptions.HasImage]
  | cons option rest ih =>
    unfold InsecuOptions.HasImage
    by_cases h : ToLower option = "image"
    · simp [h]
    · simp [h, ih]

theorem HasImage_eq_false_iff (opts : InsecuOptions) :
    opts.HasImage = false ↔ ∀ o ∈ opts, ToLower o ≠ "image" := by
  rw [← Bool.not_eq_true, HasImage_iff]
  simp

/-! ## C5: `FetchInsecure` -/

/-- C5. For every client built by `NewRktClient`, every debug setting, behaviour of the binary and
image reference, `FetchInsecure` issues one invocation whose last argument is the image reference,
and: (1) if no configured insecure option is `image` once put in lower case, the one argument
before the image reference that starts with `--insecure-options` lists the configured options
followed by `image`; if some configured option is `image` once put in lower case, it is the flag
stored in the client, which lists the configured options;
(2) if the version is greater than or equal to 1.24.0, the one argument before the image reference
that starts with `--pull-policy` is `--pull-policy=new`, whatever pull policy is configured;
(3) the client after the call is the client before it, so a later `Fetch` does what it would have
done without the call: in particular the one `--insecure-options` argument it passes before the
image reference lists the configured options only.  This holds of the slices in memory too: in
every memory that holds the client, with any growth policy of `append` and anything in the spare
capacity of the two slices, the call on slices issues that same invocation and leaves a memory
that holds the same client, and a later `Fetch` issues from that memory the invocation it issues
from the memory before the call, the one composed on lists. -/
theorem FetchInsecure_widens_for_one_call (rkt : RktClient) (hc : rkt.Built)
    (debugEnabled : Bool) (rt : Runtime) (image : String) :
    ∃ ran args,
      rkt.FetchInsecure debugEnabled rt image = some ran
      ∧ ran.calls = [⟨if rkt.config.Path = "" then "rkt" else rkt.config.Path, args⟩]
      ∧ args.getLast? = some image
      ∧ ((∀ o ∈ rkt.config.InsecureOptions, ToLower o ≠ "image") →
          args.dropLast.filter (fun a => startsWith a "--insecure-options") =
            ["--insecure-options=" ++
              String.intercalate "," (rkt.config.InsecureOptions ++ ["image"])])
      ∧ ((∃ o ∈ rkt.config.InsecureOptions, ToLower o = "image") →
          args.dropLast.filter (fun a => startsWith a "--insecure-options") =
            ["--insecure-options=" ++ String.intercalate "," rkt.config.InsecureOptions]
          ∧ rkt.globalArgs.getLast? =
            some ("--insecure-options=" ++ String.intercalate "," rkt.config.InsecureOptions))
      ∧ (rkt.Version.GreaterThanOrEqualTo rktVersionWithPullPolicy = true →
          args.dropLast.filter (fun a => startsWith a "--pull-policy") = ["--pull-policy=new"])
      ∧ ran.rkt = rkt
      ∧ ran.rkt.config = rkt.config
      ∧ ran.rkt.globalArgs = rkt.globalArgs
      ∧ (∀ (rt' : Runtime) (image' : String) (pullPolicy : PullPolicy),
          ran.rkt.Fetch rt' image' pullPolicy = rkt.Fetch rt' image' pullPolicy
          ∧ ∃ ran' args',
              ran.rkt.Fetch rt' image' pullPolicy = some ran'
              ∧ ran'.calls = [⟨if rkt.config.Path = "" then "rkt" else rkt.config.Path, args'⟩]
              ∧ args'.dropLast.filter (fun a => startsWith a "--insecure-options") =
                ["--insecure-options=" ++ String.intercalate "," rkt.config.InsecureOptions])
      ∧ (∀ (grow : Nat → Nat → Nat) (st : Store) (loc : Slices.Client),
          Slices.Represents st loc rkt →
          ∃ st',
            Slices.FetchInsecure grow debugEnabled rkt st loc image =
              some (st', ⟨if rkt.config.Path = "" then "rkt" else rkt.config.Path, args⟩)
            ∧ Slices.Represents st' loc rkt
            ∧ ∀ (image' : String) (pullPolicy : PullPolicy), ∃ st0 st1 call,
                Slices.Fetch grow rkt st loc image' pullPolicy = some (st0, call)
                ∧ Slices.Fetch grow rkt st' loc image' pullPolicy = some (st1, call)
                ∧ Slices.Represents st1 loc rkt
                ∧ ∀ rt' : Runtime, ∃ ran',
                    rkt.Fetch rt' image' pullPolicy = some ran' ∧ ran'.calls = [call]) := by
  obtain ⟨d, hcons⟩ := Built_globalArgs_cons rkt hc
  obtain ⟨⟨d', hga⟩, _, _⟩ := Built_globalArgs rkt hc
  have hfetch := FetchInsecure_eq debugEnabled rt rkt image _ _ _ hcons rfl
  have hins := fetch_args_filter "--insecure-options"
    ((if rkt.config.InsecureOptions.HasImage = true then
        (rkt.config.prepareGlobalArgs d rkt.config.InsecureOptions).tail
      else (rkt.config.prepareGlobalArgs debugEnabled
        (rkt.config.InsecureOptions ++ ["image"])).tail)
      ++ (if rkt.Version.GreaterThanOrEqualTo rktVersionWithPullPolicy = true then
            ["--pull-policy=new"] else []))
    (rkt.config.NoStore = true) (rkt.config.StoreOnly = true) image
    (by decide) (by decide) (by decide) (by decide)
  have hpp := fetch_args_filter "--pull-policy"
    ((if rkt.config.InsecureOptions.HasImage = true then
        (rkt.config.prepareGlobalArgs d rkt.config.InsecureOptions).tail
      else (rkt.config.prepareGlobalArgs debugEnabled
        (rkt.config.InsecureOptions ++ ["image"])).tail)
      ++ (if rkt.Version.GreaterThanOrEqualTo rktVersionWithPullPolicy = true then
            ["--pull-policy=new"] else []))
    (rkt.config.NoStore = true) (rkt.config.StoreOnly = true) image
    (by decide) (by decide) (by decide) (by decide)
  refine ⟨_, _, hfetch, rfl, hins.2, ?_, ?_, ?_, rfl, rfl, rfl,
    fun rt' image' pullPolicy => ?_, fun grow st loc hr => ?_⟩
  · intro hall
    have hno := (HasImage_eq_false_iff _).2 hall
    rw [hins.1, List.filter_append, filter_ite_singleton_false _ _ _ (by decide)]
    simp only [hno, Bool.false_eq_true, if_false, List.append_nil]
    exact prepareGlobalArgs_tail_filter_insecure _ _ _
  · intro hsome
    have hyes := (HasImage_iff _).2 hsome
    refine ⟨?_, ?_⟩
    · rw [hins.1, List.filter_append, filter_ite_singleton_false _ _ _ (by decide)]
      simp only [hyes, if_true, List.append_nil]
      exact prepareGlobalArgs_tail_filter_insecure _ _ _
    · rw [hga]
      exact prepareGlobalArgs_getLast _ _ _
  · intro hge
    rw [hpp.1, List.filter_append]
    have hpre : ∀ l : List String, l = (if rkt.config.InsecureOptions.HasImage = true then
        (rkt.config.prepareGlobalArgs d rkt.config.InsecureOptions).tail
      else (rkt.config.prepareGlobalArgs debugEnabled
        (rkt.config.InsecureOptions ++ ["image"])).tail) →
        l.filter (fun a => startsWith a "--pull-policy") = [] := by
      intro l hl
      subst hl
      split <;> exact prepareGlobalArgs_tail_filter_pull_policy _ _ _
    rw [hpre _ rfl]
    simp only [hge, if_true, List.nil_append]
    decide
  · refine ⟨rfl, _, _, Fetch_eq rt' rkt image' pullPolicy _ _ _ hcons rfl, rfl, ?_⟩
    rw [(fetch_args_filter "--insecure-options"
      ((rkt.config.prepareGlobalArgs d rkt.config.InsecureOptions).tail
        ++ (if rkt.Version.GreaterThanOrEqualTo rktVersionWithPullPolicy = true then
              ["--pull-policy=" ++ (if rkt.config.PullPolicy = "" then pullPolicy
                else rkt.config.PullPolicy)]
            else []))
      (rkt.config.NoStore = true) (rkt.config.StoreOnly = true) image'
      (by decide) (by decide) (by decide) (by decide)).1,
      List.filter_append, prepareGlobalArgs_tail_filter_insecure,
      filter_ite_singleton_false (fun a => startsWith a "--insecure-options") _ _
        (startsWith_append_false _ _ _ (by decide) (by decide)),
      List.append_nil]
  · obtain ⟨st', hfi, hr'⟩ :=
      Slices.FetchInsecure_spec grow debugEnabled rkt st loc image _ _ hcons hr
    refine ⟨st', hfi, hr', fun image' pullPolicy => ?_⟩
    obtain ⟨st0, h0, _⟩ := Slices.Fetch_spec grow rkt st loc image' pullPolicy _ _ hcons hr
    obtain ⟨st1, h1, hr1⟩ := Slices.Fetch_spec grow rkt st' loc image' pullPolicy _ _ hcons hr'
    exact ⟨st0, st1, _, h0, h1, hr1,
      fun rt' => ⟨_, Fetch_eq rt' rkt image' pullPolicy _ _ _ hcons rfl, rfl⟩⟩

/-- C5, at two clients built from a binary of version 1.25.0.  With the one insecure option `tls`
and the pull policy `update` configured, the insecure fetch passes `--insecure-options=tls,image`
and `--pull-policy=new`, the client is unchanged, and a later `Fetch` passes
`--insecure-options=tls`; from a memory with spare capacity after `tls`, the call on slices issues
that invocation and leaves a memory that holds the client.  With the options `TLS` and `Image`
configured, the insecure fetch passes the stored flag `--insecure-options=TLS,Image`. -/
theorem FetchInsecure_widens_for_one_call_witness :
    (∃ ran args,
      (RktClient.mk "1.25.0" ⟨"", ["tls"], "", "", "", "", "update", false, false, false⟩
          ["rkt", "--insecure-options=tls"]
          [("config", .config ⟨"", ["tls"], "", "", "", "", "update", false, false, false⟩)]).FetchInsecure
            false (fun _ => ⟨"sha512-0", none⟩) "example.com/app:1" = some ran
      ∧ ran.calls = [⟨"rkt", args⟩]
      ∧ args.dropLast.filter (fun a => startsWith a "--insecure-options") =
          ["--insecure-options=tls,image"]
      ∧ args.dropLast.filter (fun a => startsWith a "--pull-policy") = ["--pull-policy=new"]
      ∧ ran.rkt =
        RktClient.mk "1.25.0" ⟨"", ["tls"], "", "", "", "", "update", false, false, false⟩
          ["rkt", "--insecure-options=tls"]
          [("config", .config ⟨"", ["tls"], "", "", "", "", "update", false, false, false⟩)]
      ∧ (∃ ran' args',
          ran.rkt.Fetch (fun _ => ⟨"sha512-1", none⟩) "example.com/db:2" "new" = some ran'
          ∧ ran'.calls = [⟨"rkt", args'⟩]
          ∧ args'.dropLast.filter (fun a => startsWith a "--insecure-options") =
            ["--insecure-options=tls"])
      ∧ ∃ st',
          Slices.FetchInsecure (fun c _ => 2 * c) false
            (RktClient.mk "1.25.0" ⟨"", ["tls"], "", "", "", "", "update", false, false, false⟩
              ["rkt", "--insecure-options=tls"]
              [("config", .config ⟨"", ["tls"], "", "", "", "", "update", false, false, false⟩)])
            [["tls", "spare"], ["rkt", "--insecure-options=tls"]]
            ⟨⟨0, 0, 1, 2⟩, ⟨1, 0, 2, 2⟩⟩ "example.com/app:1" = some (st', ⟨"rkt", args⟩)
          ∧ Slices.Represents st' ⟨⟨0, 0, 1, 2⟩, ⟨1, 0, 2, 2⟩⟩
            (RktClient.mk "1.25.0" ⟨"", ["tls"], "", "", "", "", "update", false, false, false⟩
              ["rkt", "--insecure-options=tls"]
              [("config", .config ⟨"", ["tls"], "", "", "", "", "update", false, false, false⟩)]))
    ∧ ∃ ran args,
      (RktClient.mk "1.25.0" ⟨"", ["TLS", "Image"], "", "", "", "", "", false, false, false⟩
          ["rkt", "--insecure-options=TLS,Image"]
          [("config", .config ⟨"", ["TLS", "Image"], "", "", "", "", "", false, false, false⟩)]).FetchInsecure
            false (fun _ => ⟨"sha512-0", none⟩) "example.com/app:1" = some ran
      ∧ ran.calls = [⟨"rkt", args⟩]
      ∧ args.dropLast.filter (fun a => startsWith a "--insecure-options") =
          ["--insecure-options=TLS,Image"] := by
  obtain ⟨ran, args, h1, h2, _, h4, _, h6, h7, _, _, h10, h11⟩ :=
    FetchInsecure_widens_for_one_call
      (RktClient.mk "1.25.0" ⟨"", ["tls"], "", "", "", "", "update", false, false, false⟩
        ["rkt", "--insecure-options=tls"]
        [("config", .config ⟨"", ["tls"], "", "", "", "", "update", false, false, false⟩)])
      ⟨false, fun _ => ⟨"rkt Version: 1.25.0", none⟩,
        ⟨"", ["tls"], "", "", "", "", "update", false, false, false⟩,
        ⟨[⟨"rkt", ["version"]⟩], _, none⟩, by decide, rfl⟩
      false (fun _ => ⟨"sha512-0", none⟩) "example.com/app:1"
  obtain ⟨ranB, argsB, b1, b2, _, _, b5, _⟩ :=
    FetchInsecure_widens_for_one_call
      (RktClient.mk "1.25.0" ⟨"", ["TLS", "Image"], "", "", "", "", "", false, false, false⟩
        ["rkt", "--insecure-options=TLS,Image"]
        [("config", .config ⟨"", ["TLS", "Image"], "", "", "", "", "", false, false, false⟩)])
      ⟨false, fun _ => ⟨"rkt Version: 1.25.0", none⟩,
        ⟨"", ["TLS", "Image"], "", "", "", "", "", false, false, false⟩,
        ⟨[⟨"rkt", ["version"]⟩], _, none⟩, by decide, rfl⟩
      false (fun _ => ⟨"sha512-0", none⟩) "example.com/app:1"
  obtain ⟨st', s1, s2, _⟩ := h11 (fun c _ => 2 * c)
    [["tls", "spare"], ["rkt", "--insecure-options=tls"]] ⟨⟨0, 0, 1, 2⟩, ⟨1, 0, 2, 2⟩⟩
    (Slices.Represents_intro
      (RktClient.mk "1.25.0" ⟨"", ["tls"], "", "", "", "", "update", false, false, false⟩
        ["rkt", "--insecure-options=tls"]
        [("config", .config ⟨"", ["tls"], "", "", "", "", "update", false, false, false⟩)])
      ["spare"] [])
  exact ⟨⟨ran, args, h1, h2, h4 (by decide), h6 (by decide), h7,
      (h10 (fun _ => ⟨"sha512-1", none⟩) "example.com/db:2" "new").2, st', s1, s2⟩,
    ranB, argsB, b1, b2, (b5 ⟨"Image", by decide, by decide⟩).1⟩

/-! ## C1: `Pod.Test` -/

/-- The loop of `Pod.Test` runs through a stretch of applications whose context can be prepared
and whose test passes, testing each in order, and goes on with what follows. -/
theorem Test_loop_pass (NewAciWithManifest : String → BuildArgs → AciManifest → Option Aci × Option Err)
    (aciTest : Aci → Option Err) (p : Pod) (ctx : RuntimeApp → Aci) (pre rest : List RuntimeApp)
    (hprep : ∀ e ∈ pre, NewAciWithManifest (p.path ++ "/" ++ e.Name) p.args (p.toAciManifest e) =
      (some (ctx e), none))
    (hpass : ∀ e ∈ pre, aciTest { ctx e with podName := some p.manifest.Name } = none) :
    Pod.Test.loop NewAciWithManifest aciTest p (pre ++ rest) =
      ⟨(Pod.Test.loop NewAciWithManifest aciTest p rest).outcome,
        pre.map (fun e => { ctx e with podName := some p.manifest.Name })
          ++ (Pod.Test.loop NewAciWithManifest aciTest p rest).tested⟩ := by
  induction pre with
  | nil => rfl
  | cons e pre ih =>
    have he := hprep e (List.mem_cons_self _ _)
    have ht := hpass e (List.mem_cons_self _ _)
    have ih' := ih (fun x hx => hprep x (List.mem_cons_of_mem _ hx))
      (fun x hx => hpass x (List.mem_cons_of_mem _ hx))
    rw [List.cons_append, Pod.Test.loop, he]
    simp only [ht, ih', List.map_cons, List.cons_append]

/-- C1, refuted as stated. For a pod with the one application `web` whose context cannot be
prepared, no test fails (the routine would pass on every context), yet `Pod.Test` does not return
`nil` and the routine is not invoked once per application: the process is terminated, with no
invocation of the routine.  With three applications of which the second cannot be prepared, the
routine is invoked on the first only. -/
theorem Pod_Test_fatal_counterexample :
    Pod.Test (fun _ _ _ => (none, some (.ext "cannot prepare")))
        (fun _ => none)
        ⟨[], "/pod", [], "/pod/target", ⟨"acme:1.0.0", ⟨[⟨"web", [], [], ""⟩]⟩⟩⟩ =
      ⟨.fatal (.ext "cannot prepare"), []⟩
    ∧ Pod.Test
        (fun path args manifest =>
          if path = "/pod/db" then (none, some (.ext "cannot prepare"))
          else (some ⟨path, args, manifest, none⟩, none))
        (fun _ => none)
        ⟨[], "/pod", [], "/pod/target",
          ⟨"acme:1.0.0", ⟨[⟨"web", [], [], ""⟩, ⟨"db", [], [], ""⟩, ⟨"cache", [], [], ""⟩]⟩⟩⟩ =
      ⟨.fatal (.ext "cannot prepare"),
        [⟨"/pod/web", [], ⟨⟨[], "", [], []⟩, "acme_web:1.0.0"⟩, some "acme:1.0.0"⟩]⟩ := by
  decide

/-- C1, amended. Let `ctx e` be the context that `NewAciWithManifest` prepares for the application
`e` of the pod.  (a) If `a` is the first application whose test returns an error `err`, and the
context of every application up to `a` can be prepared, `Pod.Test` returns exactly `err` and the
routine has been invoked on the applications up to `a`, in manifest order, once each, and on none
after `a`.  (b) If the context of every application can be prepared and no test fails, `Pod.Test`
returns `nil` after invoking the routine on every application, once each, in manifest order.
(c) If the context of `a` cannot be prepared and every application before it was prepared and
passed, the process is terminated by the fatal log, the routine having been invoked on the
applications before `a` only. -/
theorem Pod_Test_fail_fast
    (NewAciWithManifest : String → BuildArgs → AciManifest → Option Aci × Option Err)
    (aciTest : Aci → Option Err) (p : Pod) (ctx : RuntimeApp → Aci) :
    (∀ (pre : List RuntimeApp) (a : RuntimeApp) (post : List RuntimeApp) (err : Err),
        p.manifest.Pod.Apps = pre ++ a :: post →
        (∀ e ∈ pre ++ [a],
          NewAciWithManifest (p.path ++ "/" ++ e.Name) p.args (p.toAciManifest e) =
            (some (ctx e), none)) →
        (∀ e ∈ pre, aciTest { ctx e with podName := some p.manifest.Name } = none) →
        aciTest { ctx a with podName := some p.manifest.Name } = some err →
        Pod.Test NewAciWithManifest aciTest p =
          ⟨.returned (some err),
            (pre ++ [a]).map (fun e => { ctx e with podName := some p.manifest.Name })⟩)
    ∧ ((∀ e ∈ p.manifest.Pod.Apps,
          NewAciWithManifest (p.path ++ "/" ++ e.Name) p.args (p.toAciManifest e) =
            (some (ctx e), none)) →
        (∀ e ∈ p.manifest.Pod.Apps,
          aciTest { ctx e with podName := some p.manifest.Name } = none) →
        Pod.Test NewAciWithManifest aciTest p =
          ⟨.returned none,
            p.manifest.Pod.Apps.map (fun e => { ctx e with podName := some p.manifest.Name })⟩)
    ∧ (∀ (pre : List RuntimeApp) (a : RuntimeApp) (post : List RuntimeApp) (aci : Option Aci)
        (err : Err),
        p.manifest.Pod.Apps = pre ++ a :: post →
        (∀ e ∈ pre,
          NewAciWithManifest (p.path ++ "/" ++ e.Name) p.args (p.toAciManifest e) =
            (some (ctx e), none)) →
        (∀ e ∈ pre, aciTest { ctx e with podName := some p.manifest.Name } = none) →
        NewAciWithManifest (p.path ++ "/" ++ a.Name) p.args (p.toAciManifest a) =
          (aci, some err) →
        Pod.Test NewAciWithManifest aciTest p =
          ⟨.fatal err, pre.map (fun e => { ctx e with podName := some p.manifest.Name })⟩) := by
  refine ⟨?_, ?_, ?_⟩
  · intro pre a post err happs hprep hpass hfail
    have ha := hprep a (by simp)
    unfold Pod.Test
    rw [happs, Test_loop_pass NewAciWithManifest aciTest p ctx pre (a :: post)
      (fun e he => hprep e (by simp [he])) hpass, Pod.Test.loop, ha]
    simp only [hfail, List.map_append, List.map_cons, List.map_nil]
  · intro hprep hpass
    unfold Pod.Test
    have h := Test_loop_pass NewAciWithManifest aciTest p ctx p.manifest.Pod.Apps [] hprep hpass
    rw [List.append_nil] at h
    rw [h, Pod.Test.loop, List.append_nil]
  · intro pre a post aci err happs hprep hpass hfatal
    unfold Pod.Test
    rw [happs, Test_loop_pass NewAciWithManifest aciTest p ctx pre (a :: post) hprep hpass,
      Pod.Test.loop, hfatal]
    simp only [List.append_nil]

/-- C1, amended, at a pod of three applications of which the second fails its test: the error of
the second is returned unchanged and the routine is invoked on the first two only. -/
theorem Pod_Test_fail_fast_witness :
    Pod.Test (fun path args manifest => (some ⟨path, args, manifest, none⟩, none))
        (fun aci => if aci.path = "/pod/db" then some (.ext "db test failed") else none)
        ⟨[], "/pod", [], "/pod/target",
          ⟨"acme:1.0.0", ⟨[⟨"web", [], [], ""⟩, ⟨"db", [], [], ""⟩, ⟨"cache", [], [], ""⟩]⟩⟩⟩ =
      ⟨.returned (some (.ext "db test failed")),
        [⟨"/pod/web", [], ⟨⟨[], "", [], []⟩, "acme_web:1.0.0"⟩, some "acme:1.0.0"⟩,
          ⟨"/pod/db", [], ⟨⟨[], "", [], []⟩, "acme_db:1.0.0"⟩, some "acme:1.0.0"⟩]⟩ :=
  (Pod_Test_fail_fast (fun path args manifest => (some ⟨path, args, manifest, none⟩, none))
    (fun aci => if aci.path = "/pod/db" then some (.ext "db test failed") else none)
    ⟨[], "/pod", [], "/pod/target",
      ⟨"acme:1.0.0", ⟨[⟨"web", [], [], ""⟩, ⟨"db", [], [], ""⟩, ⟨"cache", [], [], ""⟩]⟩⟩⟩
    (fun e => ⟨"/pod/" ++ e.Name, [], ⟨⟨e.Annotations, e.App, e.Dependencies, []⟩,
      "acme_" ++ e.Name ++ ":1.0.0"⟩, none⟩)).1
    [⟨"web", [], [], ""⟩] ⟨"db", [], [], ""⟩ [⟨"cache", [], [], ""⟩] (.ext "db test failed")
    rfl (by decide) (by decide) (by decide)

/-! ## C7: application names after `readPodManifest` -/

/-- How an entry of the manifest read and the entry of the manifest returned are related: all is
kept, but an empty name, which becomes the short name of the first dependency. -/
theorem nameApps_forall₂ (apps : List RuntimeApp)
    (hdeps : ∀ e ∈ apps, e.Name = "" → e.Dependencies ≠ []) :
    ∃ named, readPodManifest.nameApps apps = some named
      ∧ List.Forall₂
        (fun e e' => e'.Dependencies = e.Dependencies ∧ e'.Annotations = e.Annotations
          ∧ e'.App = e.App ∧ (e.Name ≠ "" → e'.Name = e.Name)
          ∧ (e.Name = "" → ∃ d ds, e.Dependencies = d :: ds ∧ e'.Name = ACFullname.ShortName d))
        apps named := by
  induction apps with
  | nil => exact ⟨[], rfl, List.Forall₂.nil⟩
  | cons app rest ih =>
    obtain ⟨named, hnamed, hall⟩ := ih (fun e he => hdeps e (List.mem_cons_of_mem _ he))
    by_cases hname : app.Name = ""
    · cases hd : app.Dependencies with
      | nil => exact absurd hd (hdeps app (List.mem_cons_self _ _) hname)
      | cons d ds =>
        refine ⟨{ app with Name := ACFullname.ShortName d } :: named, ?_, ?_⟩
        · rw [readPodManifest.nameApps]
          simp only [hname, hd, hnamed, if_true]
        · refine List.Forall₂.cons ⟨rfl, rfl, rfl, fun h => absurd hname h, fun _ => ?_⟩ hall
          exact ⟨d, ds, hd, rfl⟩
    · refine ⟨app :: named, ?_, ?_⟩
      · rw [readPodManifest.nameApps]
        simp only [hname, hnamed, if_false]
      · exact List.Forall₂.cons ⟨rfl, rfl, rfl, fun _ => rfl, fun h => absurd h hname⟩ hall

/-- Names related as in `nameApps_forall₂` are non-empty when the short names used are. -/
theorem forall₂_names_ne (apps named : List RuntimeApp)
    (hall : List.Forall₂
      (fun e e' => e'.Dependencies = e.Dependencies ∧ e'.Annotations = e.Annotations
        ∧ e'.App = e.App ∧ (e.Name ≠ "" → e'.Name = e.Name)
        ∧ (e.Name = "" → ∃ d ds, e.Dependencies = d :: ds ∧ e'.Name = ACFullname.ShortName d))
      apps named)
    (hshort : ∀ e ∈ apps, e.Name = "" →
      ∀ d ds, e.Dependencies = d :: ds → ACFullname.ShortName d ≠ "") :
    ∀ e' ∈ named, e'.Name ≠ "" := by
  induction hall with
  | nil => intro e' he'; cases he'
  | @cons a b l₁ l₂ hrel _ ih =>
    intro e' he'
    rcases List.mem_cons.mp he' with h | h
    · subst h
      by_cases hname : a.Name = ""
      · obtain ⟨d, ds, hd, hn⟩ := hrel.2.2.2.2 hname
        rw [hn]
        exact hshort a (List.mem_cons_self _ _) hname d ds hd
      · rw [hrel.2.2.2.1 hname]
        exact hname
    · exact ih (fun e he => hshort e (List.mem_cons_of_mem _ he)) e' h

/-- C7, refuted as stated. A deserialized manifest whose one entry has no name and the one
dependency `""` is returned with the name of that entry still empty; and on a deserialized
manifest whose one entry has no name and no dependency, `readPodManifest` returns nothing at all:
it panics on `app.Dependencies[0]`. -/
theorem readPodManifest_unnamed_counterexample :
    readPodManifest (fun _ => ("", none))
        (fun _ => (⟨"acme:1.0.0", ⟨[⟨"", [""], [], ""⟩]⟩⟩, none)) "/pod/cnt-pod-manifest.yml" =
      some (some ⟨"acme:1.0.0", ⟨[⟨"", [""], [], ""⟩]⟩⟩, none)
    ∧ readPodManifest (fun _ => ("", none))
        (fun _ => (⟨"acme:1.0.0", ⟨[⟨"", [], [], ""⟩]⟩⟩, none)) "/pod/cnt-pod-manifest.yml" =
      none := by
  decide

/-- C7, amended. For every manifest that is read and deserialized without error and in which every
entry without a name declares at least one dependency, `readPodManifest` returns, without error, a
manifest of the same identity with as many entries in the same order, each with the dependencies,
annotations and app spec it had; an entry that had a name keeps it, and an entry that had none gets
the short name of its first dependency.  So every entry of the result has a non-empty name, provided
the short name of the first dependency of every entry without a name is non-empty. -/
theorem readPodManifest_names (ReadFile : String → String × Option Err)
    (Unmarshal : String → PodManifest × Option Err) (manifestPath source : String)
    (manifest : PodManifest) (hread : ReadFile manifestPath = (source, none))
    (hparse : Unmarshal source = (manifest, none))
    (hdeps : ∀ e ∈ manifest.Pod.Apps, e.Name = "" → e.Dependencies ≠ []) :
    ∃ m, readPodManifest ReadFile Unmarshal manifestPath = some (some m, none)
      ∧ m.Name = manifest.Name
      ∧ List.Forall₂
        (fun e e' => e'.Dependencies = e.Dependencies ∧ e'.Annotations = e.Annotations
          ∧ e'.App = e.App ∧ (e.Name ≠ "" → e'.Name = e.Name)
          ∧ (e.Name = "" → ∃ d ds, e.Dependencies = d :: ds ∧ e'.Name = ACFullname.ShortName d))
        manifest.Pod.Apps m.Pod.Apps
      ∧ ((∀ e ∈ manifest.Pod.Apps, e.Name = "" →
            ∀ d ds, e.Dependencies = d :: ds → ACFullname.ShortName d ≠ "") →
          ∀ e' ∈ m.Pod.Apps, e'.Name ≠ "") := by
  obtain ⟨named, hnamed, hall⟩ := nameApps_forall₂ manifest.Pod.Apps hdeps
  refine ⟨{ manifest with Pod := { manifest.Pod with Apps := named } }, ?_, rfl, hall, ?_⟩
  · unfold readPodManifest
    simp only [hread, hparse, hnamed]
  · intro hshort e' he'
    exact forall₂_names_ne _ _ hall hshort e' he'

/-- C7, amended, at the manifest with an entry without name whose dependency is
`example.com/foo` and an entry named `web`: the first resolves to the name `foo`. -/
theorem readPodManifest_names_witness :
    ∃ m, readPodManifest (fun _ => ("apps", none))
        (fun _ => (⟨"acme:1.0.0",
          ⟨[⟨"", ["example.com/foo"], [], ""⟩, ⟨"web", [], [], ""⟩]⟩⟩, none))
        "/pod/cnt-pod-manifest.yml" = some (some m, none)
      ∧ m.Pod.Apps.map (fun e => e.Name) = ["foo", "web"]
      ∧ ∀ e' ∈ m.Pod.Apps, e'.Name ≠ "" := by
  obtain ⟨m, hm, _, _, hne⟩ := readPodManifest_names (fun _ => ("apps", none))
    (fun _ => (⟨"acme:1.0.0", ⟨[⟨"", ["example.com/foo"], [], ""⟩, ⟨"web", [], [], ""⟩]⟩⟩, none))
    "/pod/cnt-pod-manifest.yml" "apps"
    ⟨"acme:1.0.0", ⟨[⟨"", ["example.com/foo"], [], ""⟩, ⟨"web", [], [], ""⟩]⟩⟩ rfl rfl (by decide)
  have hshort : ∀ e ∈ [(⟨"", ["example.com/foo"], [], ""⟩ : RuntimeApp), ⟨"web", [], [], ""⟩],
      e.Name = "" → ∀ d ds, e.Dependencies = d :: ds → ACFullname.ShortName d ≠ "" := by
    intro e he hname d ds hd
    simp only [List.mem_cons, List.mem_singleton, List.not_mem_nil, or_false] at he
    rcases he with rfl | rfl
    · simp only [List.cons.injEq] at hd
      rw [← hd.1]
      decide
    · exact absurd hname (by decide)
  refine ⟨m, hm, ?_, hne hshort⟩
  have hval : readPodManifest (fun _ => ("apps", none))
      (fun _ => (⟨"acme:1.0.0",
        ⟨[⟨"", ["example.com/foo"], [], ""⟩, ⟨"web", [], [], ""⟩]⟩⟩, none))
      "/pod/cnt-pod-manifest.yml" =
      some (some ⟨"acme:1.0.0",
        ⟨[⟨"foo", ["example.com/foo"], [], ""⟩, ⟨"web", [], [], ""⟩]⟩⟩, none) := by decide
  rw [hval] at hm
  simp only [Option.some.injEq, Prod.mk.injEq, and_true] at hm
  subst hm
  decide

/-! ## C10: the manifest synthesized for an application -/

theorem doScanf_rktVersionFormat (rest : List Char) :
    doScanf rktVersionFormat ("rkt Version:".data ++ rest) = doScanf [.blank, .verbS] rest := by
  rfl

theorem skipBlanks_append (ws l : List Char) (hws : ∀ c ∈ ws, isSpace c = true ∧ c ≠ '\n') :
    skipBlanks (ws ++ l) = skipBlanks l := by
  induction ws with
  | nil => rfl
  | cons w ws ih =>
    have hw := hws w (List.mem_cons_self _ _)
    rw [List.cons_append, skipBlanks]
    have hne : (w != '\n') = true := by simpa using hw.2
    simp only [hw.1, hne, Bool.and_self, if_true]
    exact ih (fun c hc => hws c (List.mem_cons_of_mem _ hc))

theorem skipBlanks_cons_of_not_isSpace (c : Char) (l : List Char) (hc : isSpace c = false) :
    skipBlanks (c :: l) = c :: l := by
  rw [skipBlanks]
  simp [hc]

theorem SkipSpace_cons_of_not_isSpace (c : Char) (l : List Char) (hc : isSpace c = false) :
    SkipSpace (c :: l) = .ok (c :: l) := by
  have h1 : c ≠ '\r' := by
    intro h; rw [h] at hc; exact absurd hc (by decide)
  have h2 : c ≠ '\n' := by
    intro h; rw [h] at hc; exact absurd hc (by decide)
  rw [SkipSpace]
  simp [h1, h2, hc]

theorem SkipSpace_ok_head (inp : List Char) (c : Char) (cs : List Char)
    (h : SkipSpace inp = .ok (c :: cs)) : isSpace c = false := by
  induction inp with
  | nil => simp [SkipSpace] at h
  | cons x xs ih =>
    rw [SkipSpace] at h
    split at h
    · exact ih h
    · split at h
      · cases h
      · split at h
        · rename_i hx
          simp only [Except.ok.injEq, List.cons.injEq] at h
          rw [← h.1]
          simpa using hx
        · exact ih h


theorem takeWhile_word (tok tail : List Char) (htok : ∀ c ∈ tok, isSpace c = false)
    (htail : ∀ c ∈ tail.head?, isSpace c = true) :
    (tok ++ tail).takeWhile (fun r => !isSpace r) = tok := by
  induction tok with
  | nil =>
    cases tail with
    | nil => rfl
    | cons t ts =>
      have := htail t (by simp)
      simp [List.takeWhile, this]
  | cons t ts ih =>
    have ht := htok t (List.mem_cons_self _ _)
    rw [List.cons_append, List.takeWhile_cons]
    simp only [ht, Bool.not_false, if_true]
    rw [ih (fun c hc => htok c (List.mem_cons_of_mem _ hc))]

/-- A blank of the format and `%s` on blanks followed by a word. -/
theorem doScanf_word (ws tok tail : List Char) (hws0 : ws ≠ [])
    (hws : ∀ c ∈ ws, isSpace c = true ∧ c ≠ '\n') (htok0 : tok ≠ [])
    (htok : ∀ c ∈ tok, isSpace c = false) (htail : ∀ c ∈ tail.head?, isSpace c = true) :
    doScanf [.blank, .verbS] (ws ++ tok ++ tail) = (1, none, [String.mk tok]) := by
  cases ws with
  | nil => exact absurd rfl hws0
  | cons w ws =>
    cases tok with
    | nil => exact absurd rfl htok0
    | cons t ts =>
      have hw := hws w (List.mem_cons_self _ _)
      have ht := htok t (List.mem_cons_self _ _)
      have hblank : skipBlanks (ws ++ (t :: ts) ++ tail) = t :: (ts ++ tail) := by
        rw [List.append_assoc, skipBlanks_append _ _
          (fun c hc => hws c (List.mem_cons_of_mem _ hc)), List.cons_append,
          skipBlanks_cons_of_not_isSpace _ _ ht]
      rw [List.cons_append, List.cons_append, doScanf]
      simp only [hw.1, hw.2, Bool.not_true, Bool.false_eq_true, if_false]
      rw [hblank, doScanf, SkipSpace_cons_of_not_isSpace _ _ ht]
      simp only [doScanf]
      rw [show t :: (ts ++ tail) = (t :: ts) ++ tail from rfl, takeWhile_word _ _ htok htail]

/-- A blank of the format and `%s` on blanks only: the scan fails. -/
theorem doScanf_blanks (ws : List Char) (hws : ∀ c ∈ ws, isSpace c = true ∧ c ≠ '\n') :
    doScanf [.blank, .verbS] ws = (0, some (.ext "EOF"), []) := by
  cases ws with
  | nil => rfl
  | cons w ws =>
    have hw := hws w (List.mem_cons_self _ _)
    have hblank : skipBlanks ws = [] := by
      have := skipBlanks_append ws [] (fun c hc => hws c (List.mem_cons_of_mem _ hc))
      rw [List.append_nil] at this
      rw [this]; rfl
    rw [doScanf]
    simp only [hw.1, hw.2, Bool.not_true, Bool.false_eq_true, if_false]
    rw [hblank]
    rfl

/-- A blank of the format on a rune that is no space: the scan fails. -/
theorem doScanf_no_blank (c : Char) (cs : List Char) (hc : isSpace c = false) :
    doScanf [.blank, .verbS] (c :: cs) =
      (0, some (.ext "expected space in input to match format"), []) := by
  rw [doScanf]
  simp [hc]

/-- The verb `%s` either fails, storing nothing, or stores one word. -/
theorem doScanf_verbS (inp : List Char) :
    (∃ e, doScanf [.verbS] inp = (0, some e, [])) ∨
      ∃ word, doScanf [.verbS] inp = (1, none, [word]) := by
  rw [doScanf]
  split
  · exact Or.inl ⟨_, rfl⟩
  · exact Or.inl ⟨_, rfl⟩
  · exact Or.inr ⟨_, rfl⟩

/-- A blank of the format and `%s` either fail, storing nothing, or store one word. -/
theorem doScanf_blank_verbS (inp : List Char) :
    (∃ e, doScanf [.blank, .verbS] inp = (0, some e, [])) ∨
      ∃ word, doScanf [.blank, .verbS] inp = (1, none, [word]) := by
  cases inp with
  | nil =>
    rw [doScanf]
    exact doScanf_verbS []
  | cons c cs =>
    rw [doScanf]
    split
    · exact Or.inl ⟨_, rfl⟩
    · split
      · exact Or.inl ⟨_, rfl⟩
      · exact doScanf_verbS _

theorem data_of_startsWith (s p : String) (h : startsWith s p = true) :
    s.data = p.data ++ s.data.drop p.data.length := by
  unfold startsWith at h
  obtain ⟨t, ht⟩ := List.isPrefixOf_iff_prefix.mp h
  rw [← ht, List.drop_left]


theorem scan_skip (fields : Fields) (output : String) (pre rest : List String)
    (hpre : ∀ l ∈ pre, startsWith l "rkt Version:" = false) :
    RktClient.GetVersion.scan fields output (pre ++ rest) =
      RktClient.GetVersion.scan fields output rest := by
  induction pre with
  | nil => rfl
  | cons l pre ih =>
    have hl := hpre l (List.mem_cons_self _ _)
    rw [List.cons_append, RktClient.GetVersion.scan]
    simp only [hl, Bool.false_eq_true, if_false]
    exact ih (fun x hx => hpre x (List.mem_cons_of_mem _ hx))

/-- The decision of `GetVersion` on a line that starts with `rkt Version:`, by what the scan of the
text after it gives. -/
theorem scan_cons_eq (fields : Fields) (output line : String) (post : List String)
    (hline : startsWith line "rkt Version:" = true) :
    RktClient.GetVersion.scan fields output (line :: post) =
      match doScanf [.blank, .verbS] (line.data.drop 12) with
      | (_, some err, _) =>
        ("", some (.WithEF err (fields.WithField "cpntent" (.str line)) "Failed to read rkt version"))
      | (read, none, vals) =>
        if read != 1 then
          ("", some (.WithF (fields.WithField "cpntent" (.str line)) "Failed to read rkt version"))
        else (vals.head?.getD "", none) := by
  have hdata := data_of_startsWith line _ hline
  rw [RktClient.GetVersion.scan]
  simp only [hline, if_true, Sscanf]
  have hscan : doScanf rktVersionFormat line.data =
      doScanf [.blank, .verbS] (line.data.drop 12) := by
    conv_lhs => rw [hdata]
    exact doScanf_rktVersionFormat _
  rw [hscan]
  rcases doScanf [.blank, .verbS] (line.data.drop 12) with ⟨n, _ | e, vals⟩ <;> rfl

theorem scan_err_empty (fields : Fields) (output : String) (lines : List String) :
    (RktClient.GetVersion.scan fields output lines).2 ≠ none →
      (RktClient.GetVersion.scan fields output lines).1 = "" := by
  induction lines with
  | nil => intro _; rfl
  | cons line rest ih =>
    rw [RktClient.GetVersion.scan]
    split
    · split
      · intro _; rfl
      · split
        · intro _; rfl
        · intro h; exact absurd rfl h
    · exact ih

theorem splitOnChar_ne_nil (sep : Char) (l : List Char) : splitOnChar sep l ≠ [] := by
  cases l with
  | nil => simp [splitOnChar]
  | cons c cs =>
    rw [splitOnChar]
    split <;> split <;> simp

theorem splitOnChar_append_sep (sep : Char) (l r : List Char) (h : sep ∉ l) :
    splitOnChar sep (l ++ sep :: r) = l :: splitOnChar sep r := by
  induction l with
  | nil =>
    rw [List.nil_append, splitOnChar]
    cases hr : splitOnChar sep r with
    | nil => exact absurd hr (splitOnChar_ne_nil sep r)
    | cons seg segs => simp
  | cons c cs ih =>
    have hc : c ≠ sep := fun hc => h (hc ▸ List.mem_cons_self _ _)
    have hcs : sep ∉ cs := fun hm => h (List.mem_cons_of_mem _ hm)
    rw [List.cons_append, splitOnChar, ih hcs]
    simp [hc]

theorem utf8ByteSize_replicate (n : Nat) :
    (String.mk (List.replicate n 'a')).utf8ByteSize = n := by
  induction n with
  | zero => rfl
  | succ n ih =>
    rw [List.replicate_succ]
    simp only [String.utf8ByteSize, String.utf8ByteSize.go] at ih ⊢
    rw [ih]
    rfl

/-- A line of 64 KiB stops the scan of the output: the lines after it are not seen. -/
theorem scanLines_overlong (rest : List Char) :
    scanLines (String.mk (List.replicate MaxScanTokenSize 'a' ++ '\n' :: rest)) = [] := by
  unfold scanLines
  have hsplit : splitOnChar '\n' (List.replicate MaxScanTokenSize 'a' ++ '\n' :: rest) =
      List.replicate MaxScanTokenSize 'a' :: splitOnChar '\n' rest :=
    splitOnChar_append_sep _ _ _ (by
      intro h
      have := List.eq_of_mem_replicate h
      exact absurd this (by decide))
  have hsize : decide ((String.mk (List.replicate MaxScanTokenSize 'a')).utf8ByteSize <
      MaxScanTokenSize) = false := by
    rw [utf8ByteSize_replicate]
    simp
  simp only [hsplit]
  split
  · cases hr : splitOnChar '\n' rest with
    | nil => exact absurd hr (splitOnChar_ne_nil _ _)
    | cons seg segs =>
      simp only [List.dropLast_cons₂, List.takeWhile_cons, hsize]
      rfl
  · simp only [List.takeWhile_cons, hsize]
    rfl

/-- After a line of 64 KiB the version line is not seen: `GetVersion` reports that no version was
found, with the raw output attached, although the next line is `rkt Version: 1.25.0`. -/
theorem GetVersion_overlong_line (rkt : RktClient) (head : String) (rest : List String)
    (h : rkt.globalArgs = head :: rest) :
    (rkt.GetVersion (fun _ =>
        ⟨String.mk (List.replicate MaxScanTokenSize 'a' ++ '\n' :: "rkt Version: 1.25.0".data),
          none⟩)).map (fun ran => ran.result) =
      some ("", some (.WithF (rkt.fields.WithField "content" (.str
        (String.mk (List.replicate MaxScanTokenSize 'a' ++ '\n' :: "rkt Version: 1.25.0".data))))
        "Cannot found rkt version from rkt call")) := by
  rw [GetVersion_eq _ rkt head rest h]
  simp only [Option.map_some', scanLines_overlong]
  rfl

/-- C9, refuted as stated. On the client under construction for the empty configuration: when
the output of the version query is the line `junk` followed by the line `rkt Version:`, which has
no token, the error of `GetVersion` carries that second line (under the name `cpntent`) and not the
raw output; and when the version query fails, the error carries the fields of the client only,
although the binary has produced output. -/
theorem GetVersion_raw_output_counterexample :
    ((NewRktClient.rkt false ⟨"", [], "", "", "", "", "", false, false, false⟩).GetVersion
        (fun _ => ⟨"junk\nrkt Version:\n", none⟩)).map (fun ran => ran.result) =
      some ("", some (.WithEF (.ext "EOF")
        [("config", .config ⟨"", ["ondisk", "image"], "", "", "", "", "", false, false, false⟩),
          ("cpntent", .str "rkt Version:")] "Failed to read rkt version"))
    ∧ FieldVal.str "junk\nrkt Version:\n" ∉
        ([("config", FieldVal.config
            ⟨"", ["ondisk", "image"], "", "", "", "", "", false, false, false⟩),
          ("cpntent", FieldVal.str "rkt Version:")].map (fun kv => kv.2))
    ∧ ((NewRktClient.rkt false ⟨"", [], "", "", "", "", "", false, false, false⟩).GetVersion
        (fun _ => ⟨"rkt: unknown command", some (.ext "exit status 1")⟩)).map
          (fun ran => ran.result) =
      some ("", some (.WithEF (.ext "exit status 1")
        [("config", .config ⟨"", ["ondisk", "image"], "", "", "", "", "", false, false, false⟩)]
        "Failed to get rkt Version"))
    ∧ FieldVal.str "rkt: unknown command" ∉
        ([("config", FieldVal.config
            ⟨"", ["ondisk", "image"], "", "", "", "", "", false, false, false⟩)].map
          (fun kv => kv.2)) := by
  decide

/-- C9, amended. For every client whose global arguments start with the binary path and every
behaviour of the binary, `GetVersion` issues the one invocation `<binary> version`, leaves the
client as it is, and: if the query fails, it returns the empty version and an error that wraps the
error of the query and carries the fields of the client only; otherwise it goes through the lines
of the output in order (as the line scanner yields them) and decides on the first line that starts
with `rkt Version:`.  If there is no such line, it returns the empty version and an error that
carries the raw output (field `content`).  If that line is `rkt Version:`, one or more blanks, and
a token that ends at the end of the line or at a space, it returns exactly that token and no error.
If the rest of that line is empty or all blanks, or starts with a rune that is no space, it returns
the empty version and an error that carries that line (field `cpntent`), not the raw output; a
decision on that line is always the one or the other.  A non-empty version is never returned
together with an error. -/
theorem GetVersion_detection (rt : Runtime) (rkt : RktClient) (head : String)
    (rest : List String) (h : rkt.globalArgs = head :: rest) :
    ∃ ran, rkt.GetVersion rt = some ran ∧ ran.rkt = rkt ∧ ran.calls = [⟨head, ["version"]⟩]
      ∧ (∀ err, (rt ⟨head, ["version"]⟩).err = some err →
          ran.result = ("", some (.WithEF err rkt.fields "Failed to get rkt Version")))
      ∧ ((rt ⟨head, ["version"]⟩).err = none →
          (∀ l ∈ scanLines (rt ⟨head, ["version"]⟩).output,
            startsWith l "rkt Version:" = false) →
          ran.result = ("", some (.WithF
            (rkt.fields.WithField "content" (.str (rt ⟨head, ["version"]⟩).output))
            "Cannot found rkt version from rkt call")))
      ∧ ((rt ⟨head, ["version"]⟩).err = none →
          ∀ (pre : List String) (line : String) (post : List String),
            scanLines (rt ⟨head, ["version"]⟩).output = pre ++ line :: post →
            (∀ l ∈ pre, startsWith l "rkt Version:" = false) →
            startsWith line "rkt Version:" = true →
            (∀ (ws tok tail : List Char),
                line.data = "rkt Version:".data ++ ws ++ tok ++ tail →
                ws ≠ [] → (∀ c ∈ ws, isSpace c = true ∧ c ≠ '\n') →
                tok ≠ [] → (∀ c ∈ tok, isSpace c = false) →
                (∀ c ∈ tail.head?, isSpace c = true) →
                ran.result = (String.mk tok, none))
            ∧ ((∀ c ∈ line.data.drop "rkt Version:".length, isSpace c = true ∧ c ≠ '\n') →
                ∃ cause, ran.result = ("", some (.WithEF cause
                  (rkt.fields.WithField "cpntent" (.str line)) "Failed to read rkt version")))
            ∧ (∀ c cs, line.data.drop "rkt Version:".length = c :: cs → isSpace c = false →
                ∃ cause, ran.result = ("", some (.WithEF cause
                  (rkt.fields.WithField "cpntent" (.str line)) "Failed to read rkt version")))
            ∧ (ran.result.2 = none ∨
                ∃ cause, ran.result = ("", some (.WithEF cause
                  (rkt.fields.WithField "cpntent" (.str line)) "Failed to read rkt version"))))
      ∧ (ran.result.2 ≠ none → ran.result.1 = "") := by
  refine ⟨_, GetVersion_eq rt rkt head rest h, rfl, rfl, ?_, ?_, ?_, ?_⟩
  · intro err herr
    simp only [herr]
  · intro herr hnone
    simp only [herr]
    have hskip := scan_skip rkt.fields (rt ⟨head, ["version"]⟩).output
      (scanLines (rt ⟨head, ["version"]⟩).output) [] hnone
    rw [List.append_nil] at hskip
    rw [hskip]
    rfl
  · intro herr pre line post hlines hpre hline
    have hdec : RktClient.GetVersion.scan rkt.fields (rt ⟨head, ["version"]⟩).output
        (scanLines (rt ⟨head, ["version"]⟩).output) =
        match doScanf [.blank, .verbS] (line.data.drop 12) with
        | (_, some err, _) =>
          ("", some (.WithEF err (rkt.fields.WithField "cpntent" (.str line))
            "Failed to read rkt version"))
        | (read, none, vals) =>
          if read != 1 then
            ("", some (.WithF (rkt.fields.WithField "cpntent" (.str line))
              "Failed to read rkt version"))
          else (vals.head?.getD "", none) := by
      rw [hlines, scan_skip _ _ _ _ hpre, scan_cons_eq _ _ _ _ hline]
    simp only [herr, hdec]
    refine ⟨?_, ?_, ?_, ?_⟩
    · intro ws tok tail hdata hws0 hws htok0 htok htail
      have hdrop : line.data.drop 12 = ws ++ tok ++ tail := by
        rw [hdata, List.append_assoc, List.append_assoc]
        simp only [List.cons_append, List.nil_append, List.drop_succ_cons, List.drop_zero,
          List.append_assoc]
      rw [hdrop, doScanf_word ws tok tail hws0 hws htok0 htok htail]
      rfl
    · intro hblank
      have hblank' : ∀ c ∈ line.data.drop 12, isSpace c = true ∧ c ≠ '\n' := hblank
      rw [doScanf_blanks _ hblank']
      exact ⟨_, rfl⟩
    · intro c cs hcs hc
      have hcs' : line.data.drop 12 = c :: cs := hcs
      rw [hcs', doScanf_no_blank c cs hc]
      exact ⟨_, rfl⟩
    · rcases doScanf_blank_verbS (line.data.drop 12) with ⟨e, he⟩ | ⟨word, hw⟩
      · rw [he]
        exact Or.inr ⟨_, rfl⟩
      · rw [hw]
        exact Or.inl rfl
  · cases herr : (rt ⟨head, ["version"]⟩).err with
    | some err => intro _; rfl
    | none => exact scan_err_empty _ _ _

/-- C9, amended, at the client under construction for the empty configuration and a binary that
prints `rkt Version: 1.25.0` as the second line of its output. -/
theorem GetVersion_detection_witness :
    ∃ ran, (NewRktClient.rkt false ⟨"", [], "", "", "", "", "", false, false, false⟩).GetVersion
        (fun _ => ⟨"go 1.7\r\nrkt Version: 1.25.0\nappc Version: 0.8.10\n", none⟩) = some ran
      ∧ ran.calls = [⟨"rkt", ["version"]⟩]
      ∧ ran.result = ("1.25.0", none) := by
  obtain ⟨ran, h1, _, h3, _, _, h6, _⟩ := GetVersion_detection
    (fun _ => ⟨"go 1.7\r\nrkt Version: 1.25.0\nappc Version: 0.8.10\n", none⟩)
    (NewRktClient.rkt false ⟨"", [], "", "", "", "", "", false, false, false⟩)
    "rkt" ["--insecure-options=ondisk,image"] (by decide)
  exact ⟨ran, h1, h3,
    (h6 rfl ["go 1.7"] "rkt Version: 1.25.0" ["appc Version: 0.8.10"] (by decide) (by decide)
      (by decide)).1 [' '] "1.25.0".data [] (by decide) (by decide) (by decide) (by decide)
      (by decide) (by decide)⟩

end Dgr
